import Mathlib

/-!
Verification development for the DagForgeEngage server
(`server/routes.ts` together with the in-memory storage layer
`MemStorage` and the shared schema).

Shallow embedding conventions:
* JavaScript `Map` objects (insertion-ordered, `set` replaces in place)
  are association lists `List (String × α)` together with `mapGet` /
  `mapSet` below.
* JavaScript `Set` objects of room names are duplicate-free lists with
  the insertion-order preserving `joinRoom` below.
* Numeric-string fields that the routes run through `parseFloat` /
  `toString` (`bdagBalance`, `amount`, `totalPool`, `bdagReward`, ...)
  are modelled by their exact rational value `ℚ`; `toFixed(2)` is
  modelled by `toFixed2`, rounding to the nearest hundredth with ties
  away from zero towards plus infinity, which is the tie rule of
  `Number.prototype.toFixed` on exactly representable inputs.
* Timestamps (`new Date()`) are opaque `Nat` values threaded in as a
  `now` parameter; `randomUUID()` results are threaded in as explicit
  fresh-id parameters.
* Exceptions thrown inside a route handler and converted to an HTTP
  error response by the surrounding `try/catch` are an `Except` whose
  error carries the HTTP status, the message, and the store as it was
  at the moment of the throw (the code performs no rollback).
-/

namespace DagForge

/-- Timestamps are opaque; only identity matters for the claims. -/
abbrev Timestamp := Nat

/-! ### JS `Map` as an insertion-ordered association list -/

/-- Embeds `Map.get`: first (unique) binding of the key. -/
def mapGet {α : Type} (m : List (String × α)) (k : String) : Option α :=
  (m.find? (fun e => e.1 == k)).map (fun e => e.2)

/-- Embeds `Map.set`: replace in place when the key is present, append otherwise
(JS `Map` keeps the original insertion position on overwrite). -/
def mapSet {α : Type} (m : List (String × α)) (k : String) (v : α) :
    List (String × α) :=
  if (m.find? (fun e => e.1 == k)).isSome then
    m.map (fun e => if e.1 == k then (k, v) else e)
  else
    m ++ [(k, v)]

/-- Embeds `Array.from(map.values())`: the values in insertion order. -/
def mapValues {α : Type} (m : List (String × α)) : List α :=
  m.map (fun e => e.2)

/-! ### WebSocket layer (`routes.ts` lines 27–52 and 510–622) -/

/-- Embeds `WebSocket.OPEN` readiness constant. -/
def WSOPEN : Nat := 1

/-- One entry of the `wsClients` map (`WebSocketClient` in `routes.ts`):
the channel handle is an opaque `Nat`, `rooms` is the insertion-ordered
duplicate-free list modelling the JS `Set`. -/
structure WsClient where
  ws : Nat
  userId : Option String
  rooms : List String
  readyState : Nat
deriving DecidableEq

/-- Embeds `client.rooms.add(room)` on the JS `Set`: no-op when present,
append otherwise. -/
def joinRoom (rooms : List String) (r : String) : List String :=
  if r ∈ rooms then rooms else rooms ++ [r]

/-- Embeds `broadcastToRoom` (`routes.ts` 36–43): serialize the message once,
then send the serialized string to every registered client whose room
set contains `room` and whose channel is open.  The result is the list
of performed sends, as (handle, payload) pairs in registry order. -/
def broadcastToRoom {α : Type} (serialize : α → String)
    (clients : List WsClient) (room : String) (message : α) :
    List (Nat × String) :=
  let messageStr := serialize message
  clients.filterMap (fun c =>
    if room ∈ c.rooms ∧ c.readyState = WSOPEN then
      some (c.ws, messageStr)
    else
      none)

/-! ### Domain records (`shared/schema.ts`) -/

/-- Embeds `users` table row. -/
structure User where
  id : String
  username : String
  email : String
  password : String
  walletAddress : Option String
  role : String
  level : Int
  xp : Int
  bdagBalance : ℚ
  portfolioValue : ℚ
  globalRank : Option Int
  weeklyXp : Int
  streakDays : Int
  lastActive : Option Timestamp
  createdAt : Option Timestamp
deriving DecidableEq

/-- Embeds `prediction_markets` table row.  The two percentage columns hold the
strings produced by `toFixed(2)`. -/
structure PredictionMarket where
  id : String
  title : String
  description : String
  category : String
  endDate : Timestamp
  totalPool : ℚ
  participantCount : Int
  yesPercentage : String
  noPercentage : String
  status : String
  result : Option Bool
  createdAt : Option Timestamp
deriving DecidableEq

/-- Embeds `predictions` table row. -/
structure Prediction where
  id : String
  userId : String
  marketId : String
  prediction : Bool
  amount : ℚ
  potentialWin : ℚ
  status : String
  createdAt : Option Timestamp
deriving DecidableEq

/-- The `requirements` jsonb column: either a JSON array (of requirement
descriptions) or any non-array JSON value — the only distinction
`routes.ts` makes (`Array.isArray(task.requirements)`). -/
inductive Requirements where
  | arr : List String → Requirements
  | nonArray : Requirements
deriving DecidableEq

/-- Embeds `tasks` table row. -/
structure Task where
  id : String
  title : String
  description : String
  category : String
  difficulty : String
  xpReward : Int
  bdagReward : ℚ
  requirements : Requirements
  isDaily : Bool
  isWeekly : Bool
  maxCompletions : Option Int
  currentCompletions : Int
  isActive : Bool
  createdAt : Option Timestamp
deriving DecidableEq

/-- Embeds `user_tasks` table row. -/
structure UserTask where
  id : String
  userId : String
  taskId : String
  status : String
  progress : Int
  maxProgress : Int
  completedAt : Option Timestamp
  createdAt : Option Timestamp
deriving DecidableEq

/-- Embeds `user_achievements` table row. -/
structure UserAchievement where
  id : String
  userId : String
  achievementId : String
  progress : Int
  maxProgress : Int
  isCompleted : Bool
  completedAt : Option Timestamp
  createdAt : Option Timestamp
deriving DecidableEq

/-- Embeds `rewards` table row. -/
structure Reward where
  id : String
  userId : String
  type : String
  source : String
  xpAmount : Int
  bdagAmount : ℚ
  description : String
  createdAt : Option Timestamp
deriving DecidableEq

/-- The `MemStorage` maps touched by the verified claims (`achievements`
itself is read-only sample data and not needed). -/
structure Store where
  users : List (String × User)
  predictionMarkets : List (String × PredictionMarket)
  predictions : List (String × Prediction)
  tasks : List (String × Task)
  userTasks : List (String × UserTask)
  userAchievements : List (String × UserAchievement)
  rewards : List (String × Reward)
deriving DecidableEq

/-! ### `MemStorage` read and create operations (`storage.ts`) -/

/-- Embeds `MemStorage.getUser`. -/
def getUser (s : Store) (id : String) : Option User :=
  mapGet s.users id

/-- Embeds `MemStorage.getLeaderboard`: the users in map-insertion order,
stably sorted by the comparator `(a, b) => b.weeklyXp - a.weeklyXp`
(descending weekly XP, ES2019 `Array.prototype.sort` is stable), then
truncated to `limit` (default 10). -/
def getLeaderboard (s : Store) (limit : Nat := 10) : List User :=
  ((mapValues s.users).mergeSort
      (fun a b => decide (b.weeklyXp ≤ a.weeklyXp))).take limit

/-- The full sorted list inside `getLeaderboard`, before `slice`. -/
def leaderboardSorted (s : Store) : List User :=
  (mapValues s.users).mergeSort (fun a b => decide (b.weeklyXp ≤ a.weeklyXp))

/-- Embeds `MemStorage.getPredictionMarket`. -/
def getPredictionMarket (s : Store) (id : String) : Option PredictionMarket :=
  mapGet s.predictionMarkets id

/-- Insertable part of a market (`POST /api/prediction-markets` passes the
raw request body; `createPredictionMarket` overrides the rest). -/
structure InsertPredictionMarket where
  title : String
  description : String
  category : String
  endDate : Timestamp
  status : String
  result : Option Bool
deriving DecidableEq

/-- Embeds `MemStorage.createPredictionMarket`: spread the insert payload, then
a fresh id, zero pool and participants, 50.00/50.00 percentages. -/
def createPredictionMarket (s : Store) (newId : String) (now : Timestamp)
    (im : InsertPredictionMarket) : Store × PredictionMarket :=
  let market : PredictionMarket :=
    { id := newId
      title := im.title
      description := im.description
      category := im.category
      endDate := im.endDate
      totalPool := 0
      participantCount := 0
      yesPercentage := "50.00"
      noPercentage := "50.00"
      status := im.status
      result := im.result
      createdAt := some now }
  ({ s with predictionMarkets := mapSet s.predictionMarkets newId market },
   market)

/-- Insertable part of a prediction (`insertPredictionSchema` omits
`id`, `createdAt`, `status`). -/
structure InsertPrediction where
  userId : String
  marketId : String
  prediction : Bool
  amount : ℚ
  potentialWin : ℚ
deriving DecidableEq

/-- Embeds `MemStorage.createPrediction`. -/
def createPrediction (s : Store) (newId : String) (now : Timestamp)
    (ip : InsertPrediction) : Store × Prediction :=
  let p : Prediction :=
    { id := newId
      userId := ip.userId
      marketId := ip.marketId
      prediction := ip.prediction
      amount := ip.amount
      potentialWin := ip.potentialWin
      status := "active"
      createdAt := some now }
  ({ s with predictions := mapSet s.predictions newId p }, p)

/-- Embeds `MemStorage.getPredictionsByMarket`. -/
def getPredictionsByMarket (s : Store) (marketId : String) :
    List Prediction :=
  (mapValues s.predictions).filter (fun p => p.marketId == marketId)

/-- Embeds `MemStorage.getTask`. -/
def getTask (s : Store) (id : String) : Option Task :=
  mapGet s.tasks id

/-- Insertable part of a task (`insertTaskSchema` omits `id`,
`createdAt`, `currentCompletions`). -/
structure InsertTask where
  title : String
  description : String
  category : String
  difficulty : String
  xpReward : Int
  bdagReward : ℚ
  requirements : Requirements
  isDaily : Bool
  isWeekly : Bool
  maxCompletions : Option Int
  isActive : Bool
deriving DecidableEq

/-- Embeds `MemStorage.createTask`. -/
def createTask (s : Store) (newId : String) (now : Timestamp)
    (it : InsertTask) : Store × Task :=
  let task : Task :=
    { id := newId
      title := it.title
      description := it.description
      category := it.category
      difficulty := it.difficulty
      xpReward := it.xpReward
      bdagReward := it.bdagReward
      requirements := it.requirements
      isDaily := it.isDaily
      isWeekly := it.isWeekly
      maxCompletions := it.maxCompletions
      currentCompletions := 0
      isActive := it.isActive
      createdAt := some now }
  ({ s with tasks := mapSet s.tasks newId task }, task)

/-- Embeds `MemStorage.getUserTasks`. -/
def getUserTasks (s : Store) (userId : String) : List UserTask :=
  (mapValues s.userTasks).filter (fun ut => ut.userId == userId)

/-- Embeds `MemStorage.getUserTask`. -/
def getUserTask (s : Store) (userId taskId : String) : Option UserTask :=
  (mapValues s.userTasks).find?
    (fun ut => ut.userId == userId && ut.taskId == taskId)

/-- Insertable part of a user task. -/
structure InsertUserTask where
  userId : String
  taskId : String
  status : String
  progress : Int
  maxProgress : Int
deriving DecidableEq

/-- Embeds `MemStorage.createUserTask`. -/
def createUserTask (s : Store) (newId : String) (now : Timestamp)
    (iut : InsertUserTask) : Store × UserTask :=
  let ut : UserTask :=
    { id := newId
      userId := iut.userId
      taskId := iut.taskId
      status := iut.status
      progress := iut.progress
      maxProgress := iut.maxProgress
      completedAt := none
      createdAt := some now }
  ({ s with userTasks := mapSet s.userTasks newId ut }, ut)

/-- Insertable part of a reward. -/
structure InsertReward where
  userId : String
  type : String
  source : String
  xpAmount : Int
  bdagAmount : ℚ
  description : String
deriving DecidableEq

/-- Embeds `MemStorage.createReward`. -/
def createReward (s : Store) (newId : String) (now : Timestamp)
    (ir : InsertReward) : Store × Reward :=
  let r : Reward :=
    { id := newId
      userId := ir.userId
      type := ir.type
      source := ir.source
      xpAmount := ir.xpAmount
      bdagAmount := ir.bdagAmount
      description := ir.description
      createdAt := some now }
  ({ s with rewards := mapSet s.rewards newId r }, r)

/-! ### `MemStorage` shallow-merge update operations

A TypeScript `Partial<T>` argument is a structure with one `Option`
field per column; `some v` means the field is named in the updates
object with value `v` (for columns that are themselves nullable the
payload is again an `Option`, so that an explicit `null` counts as
named).  `{ ...record, ...updates }` is the pointwise `Option.getD`
merge. -/

/-- Embeds `Partial<User>`. -/
structure UserUpdate where
  id : Option String := none
  username : Option String := none
  email : Option String := none
  password : Option String := none
  walletAddress : Option (Option String) := none
  role : Option String := none
  level : Option Int := none
  xp : Option Int := none
  bdagBalance : Option ℚ := none
  portfolioValue : Option ℚ := none
  globalRank : Option (Option Int) := none
  weeklyXp : Option Int := none
  streakDays : Option Int := none
  lastActive : Option (Option Timestamp) := none
  createdAt : Option (Option Timestamp) := none
deriving DecidableEq

/-- Embeds `{ ...user, ...updates }`. -/
def mergeUser (u : User) (up : UserUpdate) : User where
  id := up.id.getD u.id
  username := up.username.getD u.username
  email := up.email.getD u.email
  password := up.password.getD u.password
  walletAddress := up.walletAddress.getD u.walletAddress
  role := up.role.getD u.role
  level := up.level.getD u.level
  xp := up.xp.getD u.xp
  bdagBalance := up.bdagBalance.getD u.bdagBalance
  portfolioValue := up.portfolioValue.getD u.portfolioValue
  globalRank := up.globalRank.getD u.globalRank
  weeklyXp := up.weeklyXp.getD u.weeklyXp
  streakDays := up.streakDays.getD u.streakDays
  lastActive := up.lastActive.getD u.lastActive
  createdAt := up.createdAt.getD u.createdAt

/-- Embeds `MemStorage.updateUser`: throws `"User not found"` on an unknown id,
otherwise writes back the shallow merge under the same key. -/
def updateUser (s : Store) (id : String) (up : UserUpdate) :
    Except String (Store × User) :=
  match mapGet s.users id with
  | none => .error "User not found"
  | some u =>
    let updated := mergeUser u up
    .ok ({ s with users := mapSet s.users id updated }, updated)

/-- Embeds `Partial<PredictionMarket>`. -/
structure PredictionMarketUpdate where
  id : Option String := none
  title : Option String := none
  description : Option String := none
  category : Option String := none
  endDate : Option Timestamp := none
  totalPool : Option ℚ := none
  participantCount : Option Int := none
  yesPercentage : Option String := none
  noPercentage : Option String := none
  status : Option String := none
  result : Option (Option Bool) := none
  createdAt : Option (Option Timestamp) := none
deriving DecidableEq

/-- Embeds `{ ...market, ...updates }`. -/
def mergePredictionMarket (m : PredictionMarket)
    (up : PredictionMarketUpdate) : PredictionMarket where
  id := up.id.getD m.id
  title := up.title.getD m.title
  description := up.description.getD m.description
  category := up.category.getD m.category
  endDate := up.endDate.getD m.endDate
  totalPool := up.totalPool.getD m.totalPool
  participantCount := up.participantCount.getD m.participantCount
  yesPercentage := up.yesPercentage.getD m.yesPercentage
  noPercentage := up.noPercentage.getD m.noPercentage
  status := up.status.getD m.status
  result := up.result.getD m.result
  createdAt := up.createdAt.getD m.createdAt

/-- Embeds `MemStorage.updatePredictionMarket`. -/
def updatePredictionMarket (s : Store) (id : String)
    (up : PredictionMarketUpdate) :
    Except String (Store × PredictionMarket) :=
  match mapGet s.predictionMarkets id with
  | none => .error "Market not found"
  | some m =>
    let updated := mergePredictionMarket m up
    .ok ({ s with predictionMarkets := mapSet s.predictionMarkets id updated },
         updated)

/-- Embeds `Partial<Task>`. -/
structure TaskUpdate where
  id : Option String := none
  title : Option String := none
  description : Option String := none
  category : Option String := none
  difficulty : Option String := none
  xpReward : Option Int := none
  bdagReward : Option ℚ := none
  requirements : Option Requirements := none
  isDaily : Option Bool := none
  isWeekly : Option Bool := none
  maxCompletions : Option (Option Int) := none
  currentCompletions : Option Int := none
  isActive : Option Bool := none
  createdAt : Option (Option Timestamp) := none
deriving DecidableEq

/-- Embeds `{ ...task, ...updates }`. -/
def mergeTask (t : Task) (up : TaskUpdate) : Task where
  id := up.id.getD t.id
  title := up.title.getD t.title
  description := up.description.getD t.description
  category := up.category.getD t.category
  difficulty := up.difficulty.getD t.difficulty
  xpReward := up.xpReward.getD t.xpReward
  bdagReward := up.bdagReward.getD t.bdagReward
  requirements := up.requirements.getD t.requirements
  isDaily := up.isDaily.getD t.isDaily
  isWeekly := up.isWeekly.getD t.isWeekly
  maxCompletions := up.maxCompletions.getD t.maxCompletions
  currentCompletions := up.currentCompletions.getD t.currentCompletions
  isActive := up.isActive.getD t.isActive
  createdAt := up.createdAt.getD t.createdAt

/-- Embeds `MemStorage.updateTask`. -/
def updateTask (s : Store) (id : String) (up : TaskUpdate) :
    Except String (Store × Task) :=
  match mapGet s.tasks id with
  | none => .error "Task not found"
  | some t =>
    let updated := mergeTask t up
    .ok ({ s with tasks := mapSet s.tasks id updated }, updated)

/-- Embeds `Partial<UserTask>`. -/
structure UserTaskUpdate where
  id : Option String := none
  userId : Option String := none
  taskId : Option String := none
  status : Option String := none
  progress : Option Int := none
  maxProgress : Option Int := none
  completedAt : Option (Option Timestamp) := none
  createdAt : Option (Option Timestamp) := none
deriving DecidableEq

/-- Embeds `{ ...userTask, ...updates }`. -/
def mergeUserTask (ut : UserTask) (up : UserTaskUpdate) : UserTask where
  id := up.id.getD ut.id
  userId := up.userId.getD ut.userId
  taskId := up.taskId.getD ut.taskId
  status := up.status.getD ut.status
  progress := up.progress.getD ut.progress
  maxProgress := up.maxProgress.getD ut.maxProgress
  completedAt := up.completedAt.getD ut.completedAt
  createdAt := up.createdAt.getD ut.createdAt

/-- Embeds `MemStorage.updateUserTask`. -/
def updateUserTask (s : Store) (id : String) (up : UserTaskUpdate) :
    Except String (Store × UserTask) :=
  match mapGet s.userTasks id with
  | none => .error "User task not found"
  | some ut =>
    let updated := mergeUserTask ut up
    .ok ({ s with userTasks := mapSet s.userTasks id updated }, updated)

/-- Embeds `Partial<UserAchievement>`. -/
structure UserAchievementUpdate where
  id : Option String := none
  userId : Option String := none
  achievementId : Option String := none
  progress : Option Int := none
  maxProgress : Option Int := none
  isCompleted : Option Bool := none
  completedAt : Option (Option Timestamp) := none
  createdAt : Option (Option Timestamp) := none
deriving DecidableEq

/-- Embeds `{ ...userAchievement, ...updates }`. -/
def mergeUserAchievement (ua : UserAchievement)
    (up : UserAchievementUpdate) : UserAchievement where
  id := up.id.getD ua.id
  userId := up.userId.getD ua.userId
  achievementId := up.achievementId.getD ua.achievementId
  progress := up.progress.getD ua.progress
  maxProgress := up.maxProgress.getD ua.maxProgress
  isCompleted := up.isCompleted.getD ua.isCompleted
  completedAt := up.completedAt.getD ua.completedAt
  createdAt := up.createdAt.getD ua.createdAt

/-- Embeds `MemStorage.updateUserAchievement`. -/
def updateUserAchievement (s : Store) (id : String)
    (up : UserAchievementUpdate) :
    Except String (Store × UserAchievement) :=
  match mapGet s.userAchievements id with
  | none => .error "User achievement not found"
  | some ua =>
    let updated := mergeUserAchievement ua up
    .ok ({ s with userAchievements := mapSet s.userAchievements id updated },
         updated)

/-! ### Route handlers (`routes.ts`) -/

/-- HTTP status plus the `message` string of the JSON error body. -/
structure ApiError where
  status : Nat
  message : String
deriving DecidableEq

/-- Two-decimal rendering of a nonnegative integer count of hundredths. -/
def natFixed2 (n : Nat) : String :=
  toString (n / 100) ++ "." ++
    (if n % 100 < 10 then "0" else "") ++ toString (n % 100)

/-- Embeds `Number.prototype.toFixed(2)`: round to the nearest hundredth, ties
towards plus infinity (ECMA-262 picks the larger candidate on a tie),
rendered with exactly two fraction digits. -/
def toFixed2 (q : ℚ) : String :=
  let c : ℤ := round (q * 100)
  if c < 0 then "-" ++ natFixed2 (-c).toNat else natFixed2 c.toNat

/-- The market-statistics block recomputed by `POST /api/predictions`
(`routes.ts` 247–257) from all predictions of the market. -/
structure MarketOdds where
  totalPool : ℚ
  participantCount : Int
  yesPercentage : String
  noPercentage : String
deriving DecidableEq

/-- Embeds `totalPool`, `participantCount`, `yesPercentage`, `noPercentage` as
computed in `routes.ts` 248–256: each percentage from its own side's
sum, both defaulting to `"50.00"` unless the pool is positive. -/
def marketOdds (preds : List Prediction) : MarketOdds :=
  let totalPool := (preds.map Prediction.amount).sum
  let yesAmount :=
    ((preds.filter (fun p => p.prediction)).map Prediction.amount).sum
  let noAmount :=
    ((preds.filter (fun p => !p.prediction)).map Prediction.amount).sum
  { totalPool := totalPool
    participantCount := (preds.length : Int)
    yesPercentage :=
      if 0 < totalPool then toFixed2 (yesAmount / totalPool * 100)
      else "50.00"
    noPercentage :=
      if 0 < totalPool then toFixed2 (noAmount / totalPool * 100)
      else "50.00" }

/-- Embeds `POST /api/predictions` (`routes.ts` 217–286): force the
authenticated user id into the payload, look the user up, reject when
the parsed balance is below the parsed amount, otherwise insert the
prediction, debit the balance, and (when the market exists) recompute
its statistics from all its predictions.  Broadcast frames carry no
store state and are omitted.  A thrown storage error is caught by the
route and surfaced as status 400. -/
def placePrediction (s : Store) (authUserId : String)
    (ip : InsertPrediction) (newPredId : String) (now : Timestamp) :
    Except (ApiError × Store) (Store × Prediction) :=
  let pd : InsertPrediction := { ip with userId := authUserId }
  match getUser s authUserId with
  | none => .error (⟨404, "User not found"⟩, s)
  | some user =>
    let currentBalance := user.bdagBalance
    let betAmount := pd.amount
    if currentBalance < betAmount then
      .error (⟨400, "Insufficient BDAG balance"⟩, s)
    else
      let res := createPrediction s newPredId now pd
      match updateUser res.1 authUserId
          { bdagBalance := some (currentBalance - betAmount) } with
      | .error m => .error (⟨400, m⟩, res.1)
      | .ok (s2, _updatedUser) =>
        match getPredictionMarket s2 pd.marketId with
        | none => .ok (s2, res.2)
        | some _market =>
          let odds := marketOdds (getPredictionsByMarket s2 pd.marketId)
          match updatePredictionMarket s2 pd.marketId
              { totalPool := some odds.totalPool
                participantCount := some odds.participantCount
                yesPercentage := some odds.yesPercentage
                noPercentage := some odds.noPercentage } with
          | .error m => .error (⟨400, m⟩, s2)
          | .ok (s3, _updatedMarket) => .ok (s3, res.2)

/-- Embeds `POST /api/prediction-markets` (`routes.ts` 195–215): users with
role `"basic"` are rejected with 403; everyone else creates a market. -/
def createMarketRoute (s : Store) (role : String)
    (im : InsertPredictionMarket) (newId : String) (now : Timestamp) :
    Except (ApiError × Store) (Store × PredictionMarket) :=
  if role == "basic" then
    .error (⟨403, "Upgrade required to create markets"⟩, s)
  else
    .ok (createPredictionMarket s newId now im)

/-- Embeds `POST /api/tasks` (`routes.ts` 307–327): only role `"validator"`
may create tasks. -/
def createTaskRoute (s : Store) (role : String) (it : InsertTask)
    (newId : String) (now : Timestamp) :
    Except (ApiError × Store) (Store × Task) :=
  if role != "validator" then
    .error (⟨403, "Only validators can create tasks"⟩, s)
  else
    .ok (createTask s newId now it)

/-- Embeds `POST /api/tasks/:taskId/start` (`routes.ts` 329–363): reject a
duplicate start with 400, an unknown task with 404, otherwise create
one user task in progress with `maxProgress` the length of the
requirements array (1 when the column is not an array). -/
def startTask (s : Store) (userId taskId : String) (newId : String)
    (now : Timestamp) :
    Except (ApiError × Store) (Store × UserTask) :=
  match getUserTask s userId taskId with
  | some _ => .error (⟨400, "Task already started"⟩, s)
  | none =>
    match getTask s taskId with
    | none => .error (⟨404, "Task not found"⟩, s)
    | some task =>
      let maxProgress : Int :=
        match task.requirements with
        | .arr items => (items.length : Int)
        | .nonArray => 1
      .ok (createUserTask s newId now
        { userId := userId
          taskId := taskId
          status := "in_progress"
          progress := 0
          maxProgress := maxProgress })

/-- Embeds `PATCH /api/user-tasks/:userTaskId` (`routes.ts` 365–446): find the
caller's user task, set progress and recompute status from
`progress >= maxProgress`, and whenever the merged status is
`"completed"` (with no guard on the previous status) issue a reward and
credit the task's XP and BDAG to the user.  Storage errors surface as
status 500 via the route's catch. -/
def updateUserTaskProgress (s : Store) (authUserId userTaskId : String)
    (progress : Int) (newRewardId : String) (now : Timestamp) :
    Except (ApiError × Store) (Store × UserTask) :=
  match (getUserTasks s authUserId).find? (fun ut => ut.id == userTaskId) with
  | none => .error (⟨404, "User task not found"⟩, s)
  | some userTaskToUpdate =>
    let completed := userTaskToUpdate.maxProgress ≤ progress
    match updateUserTask s userTaskId
        { progress := some progress
          status := some (if completed then "completed" else "in_progress")
          completedAt := some (if completed then some now else none) } with
    | .error m => .error (⟨500, m⟩, s)
    | .ok (s1, userTask) =>
      if userTask.status == "completed" then
        match getTask s1 userTask.taskId with
        | none => .ok (s1, userTask)
        | some task =>
          let res := createReward s1 newRewardId now
            { userId := authUserId
              type := "task_completion"
              source := task.id
              xpAmount := task.xpReward
              bdagAmount := task.bdagReward
              description := "Completed task: " ++ task.title }
          match getUser res.1 authUserId with
          | none => .ok (res.1, userTask)
          | some user =>
            match updateUser res.1 authUserId
                { xp := some (user.xp + task.xpReward)
                  weeklyXp := some (user.weeklyXp + task.xpReward)
                  bdagBalance := some (user.bdagBalance + task.bdagReward) } with
            | .error m => .error (⟨500, m⟩, res.1)
            | .ok (s3, _) => .ok (s3, userTask)
      else
        .ok (s1, userTask)

/-! ### WebSocket message router (`routes.ts` 520–591) -/

/-- Result of running an inbound text frame through `JSON.parse` and the
dispatch on `data.type`: a recognized shape, an unrecognized `type`
string, or a parse failure (the thrown `SyntaxError`, caught by the
surrounding `try`). -/
inductive WsIncoming where
  | joinRoomMsg (room : Option String)
  | ping
  | authMsg (token : Option String)
  | other (ty : String)
  | malformed
deriving DecidableEq

/-- Outbound frames the message handler can send on the same socket. -/
inductive OutFrame where
  | leaderboardUpdate (users : List User)
  | marketUpdate (markets : List PredictionMarket)
  | taskUpdate (tasks : List Task)
  | pong
deriving DecidableEq

/-- Embeds `MemStorage.getPredictionMarkets` ordering is by `createdAt`, which
the claims never inspect; the values in map order suffice for the
snapshot payloads. -/
def getPredictionMarketsRaw (s : Store) : List PredictionMarket :=
  mapValues s.predictionMarkets

/-- Embeds `MemStorage.getTasks` (active tasks; ordering by `createdAt` is
irrelevant to the claims). -/
def getTasksRaw (s : Store) : List Task :=
  (mapValues s.tasks).filter (fun t => t.isActive)

/-- One step of `ws.on('message')`: given the token verifier (the
`jwt.verify` outcome), the store for the initial snapshots, the client
entry and the parsed frame, return the updated client entry and the
reply frames.  Parse failures and handler errors are caught and logged
(`routes.ts` 588–590), so the function is total and those cases return
the client unchanged with no reply; nothing here closes the socket or
touches the registry. -/
def handleWsMessage (verify : String → Option String) (s : Store)
    (c : WsClient) (msg : WsIncoming) : WsClient × List OutFrame :=
  match msg with
  | .joinRoomMsg (some room) =>
    let c' := { c with rooms := joinRoom c.rooms room }
    let replies : List OutFrame :=
      if room == "leaderboard" then
        if c.readyState = WSOPEN then
          [.leaderboardUpdate (getLeaderboard s 100)]
        else []
      else if room == "markets" then
        if c.readyState = WSOPEN then
          [.marketUpdate (getPredictionMarketsRaw s)]
        else []
      else if room == "tasks" then
        if c.readyState = WSOPEN then
          [.taskUpdate (getTasksRaw s)]
        else []
      else []
    (c', replies)
  | .joinRoomMsg none => (c, [])
  | .ping =>
    if c.readyState = WSOPEN then (c, [.pong]) else (c, [])
  | .authMsg (some token) =>
    match verify token with
    | some uid => ({ c with userId := some uid }, [])
    | none => (c, [])
  | .authMsg none => (c, [])
  | .other _ => (c, [])
  | .malformed => (c, [])

/-- Registry-level view of one inbound frame: the closure's `client`
entry is the registry entry for the socket, so processing a frame
rewrites that single entry in place and leaves the rest of `wsClients`
alone. -/
def processWsMessage (verify : String → Option String) (s : Store)
    (reg : List WsClient) (wsId : Nat) (msg : WsIncoming) :
    List WsClient × List OutFrame :=
  match reg.find? (fun c => c.ws == wsId) with
  | none => (reg, [])
  | some c =>
    let res := handleWsMessage verify s c msg
    (reg.map (fun e => if e.ws == wsId then res.1 else e), res.2)

/-- A sequence of `join_room` frames processed on one connection
(claim C5's scenario), returning the final client entry. -/
def processJoinSeq (verify : String → Option String) (s : Store)
    (c : WsClient) (reqs : List String) : WsClient :=
  reqs.foldl
    (fun cl r => (handleWsMessage verify s cl (.joinRoomMsg (some r))).1) c

/-- Every field of `User` not named in the updates object keeps its
previous value (the id included). -/
def UserKeepsUnnamed (old merged : User) (up : UserUpdate) : Prop :=
  (up.id = none → merged.id = old.id) ∧
  (up.username = none → merged.username = old.username) ∧
  (up.email = none → merged.email = old.email) ∧
  (up.password = none → merged.password = old.password) ∧
  (up.walletAddress = none → merged.walletAddress = old.walletAddress) ∧
  (up.role = none → merged.role = old.role) ∧
  (up.level = none → merged.level = old.level) ∧
  (up.xp = none → merged.xp = old.xp) ∧
  (up.bdagBalance = none → merged.bdagBalance = old.bdagBalance) ∧
  (up.portfolioValue = none → merged.portfolioValue = old.portfolioValue) ∧
  (up.globalRank = none → merged.globalRank = old.globalRank) ∧
  (up.weeklyXp = none → merged.weeklyXp = old.weeklyXp) ∧
  (up.streakDays = none → merged.streakDays = old.streakDays) ∧
  (up.lastActive = none → merged.lastActive = old.lastActive) ∧
  (up.createdAt = none → merged.createdAt = old.createdAt)

/-- Every field of `PredictionMarket` not named in the updates object keeps its
previous value (the id included). -/
def PredictionMarketKeepsUnnamed (old merged : PredictionMarket) (up : PredictionMarketUpdate) : Prop :=
  (up.id = none → merged.id = old.id) ∧
  (up.title = none → merged.title = old.title) ∧
  (up.description = none → merged.description = old.description) ∧
  (up.category = none → merged.category = old.category) ∧
  (up.endDate = none → merged.endDate = old.endDate) ∧
  (up.totalPool = none → merged.totalPool = old.totalPool) ∧
  (up.participantCount = none → merged.participantCount = old.participantCount) ∧
  (up.yesPercentage = none → merged.yesPercentage = old.yesPercentage) ∧
  (up.noPercentage = none → merged.noPercentage = old.noPercentage) ∧
  (up.status = none → merged.status = old.status) ∧
  (up.result = none → merged.result = old.result) ∧
  (up.createdAt = none → merged.createdAt = old.createdAt)

/-- Every field of `Task` not named in the updates object keeps its
previous value (the id included). -/
def TaskKeepsUnnamed (old merged : Task) (up : TaskUpdate) : Prop :=
  (up.id = none → merged.id = old.id) ∧
  (up.title = none → merged.title = old.title) ∧
  (up.description = none → merged.description = old.description) ∧
  (up.category = none → merged.category = old.category) ∧
  (up.difficulty = none → merged.difficulty = old.difficulty) ∧
  (up.xpReward = none → merged.xpReward = old.xpReward) ∧
  (up.bdagReward = none → merged.bdagReward = old.bdagReward) ∧
  (up.requirements = none → merged.requirements = old.requirements) ∧
  (up.isDaily = none → merged.isDaily = old.isDaily) ∧
  (up.isWeekly = none → merged.isWeekly = old.isWeekly) ∧
  (up.maxCompletions = none → merged.maxCompletions = old.maxCompletions) ∧
  (up.currentCompletions = none → merged.currentCompletions = old.currentCompletions) ∧
  (up.isActive = none → merged.isActive = old.isActive) ∧
  (up.createdAt = none → merged.createdAt = old.createdAt)

/-- Every field of `UserTask` not named in the updates object keeps its
previous value (the id included). -/
def UserTaskKeepsUnnamed (old merged : UserTask) (up : UserTaskUpdate) : Prop :=
  (up.id = none → merged.id = old.id) ∧
  (up.userId = none → merged.userId = old.userId) ∧
  (up.taskId = none → merged.taskId = old.taskId) ∧
  (up.status = none → merged.status = old.status) ∧
  (up.progress = none → merged.progress = old.progress) ∧
  (up.maxProgress = none → merged.maxProgress = old.maxProgress) ∧
  (up.completedAt = none → merged.completedAt = old.completedAt) ∧
  (up.createdAt = none → merged.createdAt = old.createdAt)

/-- Every field of `UserAchievement` not named in the updates object keeps its
previous value (the id included). -/
def UserAchievementKeepsUnnamed (old merged : UserAchievement) (up : UserAchievementUpdate) : Prop :=
  (up.id = none → merged.id = old.id) ∧
  (up.userId = none → merged.userId = old.userId) ∧
  (up.achievementId = none → merged.achievementId = old.achievementId) ∧
  (up.progress = none → merged.progress = old.progress) ∧
  (up.maxProgress = none → merged.maxProgress = old.maxProgress) ∧
  (up.isCompleted = none → merged.isCompleted = old.isCompleted) ∧
  (up.completedAt = none → merged.completedAt = old.completedAt) ∧
  (up.createdAt = none → merged.createdAt = old.createdAt)

/-! ### Sample data for concrete witnesses -/

/-- Concrete client: open and joined to `"markets"`. -/
def wsA : WsClient := ⟨1, none, ["markets"], 1⟩

/-- Concrete client: open but not joined to `"markets"`. -/
def wsB : WsClient := ⟨2, none, ["tasks"], 1⟩

/-- Concrete client: joined to `"markets"` but already closed. -/
def wsC : WsClient := ⟨3, none, ["markets"], 3⟩

/-- Concrete freshly connected client: open, no rooms joined yet. -/
def wsEmpty : WsClient := ⟨7, none, [], 1⟩

/-- Concrete user for the witnesses, with balance 100. -/
def sampleUser : User :=
  { id := "user-1"
    username := "CryptoDev_42"
    email := "cryptodev@example.com"
    password := "hashed_password"
    walletAddress := some "0x742d...7A2F"
    role := "validator"
    level := 10
    xp := 500
    bdagBalance := 100
    portfolioValue := 0
    globalRank := some 127
    weeklyXp := 50
    streakDays := 7
    lastActive := some 0
    createdAt := some 0 }

/-- Concrete market for the witnesses. -/
def sampleMarket : PredictionMarket :=
  { id := "market-1"
    title := "Network Hash Rate > 50 TH/s by Dec 2024?"
    description := "sample"
    category := "network"
    endDate := 10
    totalPool := 0
    participantCount := 0
    yesPercentage := "50.00"
    noPercentage := "50.00"
    status := "active"
    result := none
    createdAt := some 0 }

/-- Concrete task worth 300 XP and 100 BDAG, with three requirements. -/
def sampleTask : Task :=
  { id := "task-1"
    title := "Deploy Smart Contract on Testnet"
    description := "sample"
    category := "development"
    difficulty := "hard"
    xpReward := 300
    bdagReward := 100
    requirements := .arr ["Connect wallet", "Deploy contract", "Verify deployment"]
    isDaily := false
    isWeekly := false
    maxCompletions := none
    currentCompletions := 47
    isActive := true
    createdAt := some 0 }

/-- Concrete user task that is already completed. -/
def completedUserTask : UserTask :=
  { id := "ut-1"
    userId := "user-1"
    taskId := "task-1"
    status := "completed"
    progress := 3
    maxProgress := 3
    completedAt := some 5
    createdAt := some 1 }

/-- Concrete store holding the sample records above. -/
def sampleStore : Store :=
  { users := [("user-1", sampleUser)]
    predictionMarkets := [("market-1", sampleMarket)]
    predictions := []
    tasks := [("task-1", sampleTask)]
    userTasks := [("ut-1", completedUserTask)]
    userAchievements := []
    rewards := [] }

/-- Concrete market-creation payload for witnesses. -/
def imSample : InsertPredictionMarket :=
  { title := "New market", description := "d", category := "network",
    endDate := 99, status := "active", result := none }

/-- Concrete task-creation payload for witnesses. -/
def itSample : InsertTask :=
  { title := "New task", description := "d", category := "testing",
    difficulty := "easy", xpReward := 50, bdagReward := 10,
    requirements := .arr ["one"], isDaily := false, isWeekly := false,
    maxCompletions := none, isActive := true }

/-- Concrete partial update naming only `walletAddress`. -/
def upW : UserUpdate := { walletAddress := some (some "0xNEW") }

def ipSample : InsertPrediction :=
  { userId := "client-supplied", marketId := "market-1", prediction := true,
    amount := 40, potentialWin := 80 }

def ipTooBig : InsertPrediction :=
  { userId := "client-supplied", marketId := "market-1", prediction := true,
    amount := 200, potentialWin := 400 }

def predYes1 : Prediction :=
  { id := "p-yes", userId := "user-1", marketId := "market-1",
    prediction := true, amount := 1, potentialWin := 2,
    status := "active", createdAt := some 0 }

def predNo799 : Prediction :=
  { id := "p-no", userId := "user-2", marketId := "market-1",
    prediction := false, amount := 799, potentialWin := 800,
    status := "active", createdAt := some 0 }

/-! ### Helper lemmas about the `Map` embedding -/

theorem find?_congr2 {α : Type} {p q : α → Bool} (h : ∀ a, p a = q a) :
    ∀ l : List α, l.find? p = l.find? q := by
  intro l
  induction l with
  | nil => rfl
  | cons a t ih => simp [List.find?_cons, h a, ih]

theorem find?_mapSet_replace {α : Type} (m : List (String × α))
    (k : String) (v : α) :
    (m.map (fun e => if e.1 == k then (k, v) else e)).find?
        (fun e => e.1 == k)
      = if (m.find? (fun e => e.1 == k)).isSome then some (k, v)
        else none := by
  have hpq : ∀ e : String × α,
      ((fun x : String × α => x.1 == k) ∘
        (fun x : String × α => if x.1 == k then (k, v) else x)) e
      = (e.1 == k) := by
    intro e
    by_cases h : e.1 = k <;> simp [h]
  rw [List.find?_map, find?_congr2 hpq m]
  cases hf : m.find? (fun e => e.1 == k) with
  | none => simp
  | some d =>
    have hdk : d.1 = k := by simpa using List.find?_some hf
    simp [hdk]

theorem find?_mapSet_replace_ne {α : Type} (m : List (String × α))
    (k k' : String) (v : α) (h : k' ≠ k) :
    (m.map (fun e => if e.1 == k then (k, v) else e)).find?
        (fun e => e.1 == k')
      = m.find? (fun e => e.1 == k') := by
  have hpq : ∀ e : String × α,
      ((fun x : String × α => x.1 == k') ∘
        (fun x : String × α => if x.1 == k then (k, v) else x)) e
      = (e.1 == k') := by
    intro e
    by_cases he : e.1 = k <;> simp [he]
  rw [List.find?_map, find?_congr2 hpq m]
  cases hf : m.find? (fun e => e.1 == k') with
  | none => simp
  | some d =>
    have hd : d.1 = k' := by simpa using List.find?_some hf
    have hdk : ¬ d.1 = k := by
      rw [hd]
      exact h
    simp [hdk]

theorem mapGet_eq_none_iff {α : Type} (m : List (String × α)) (k : String) :
    mapGet m k = none ↔ m.find? (fun e => e.1 == k) = none := by
  unfold mapGet
  cases m.find? (fun e => e.1 == k) <;> simp

theorem mapSet_of_fresh {α : Type} (m : List (String × α)) (k : String)
    (v : α) (h : mapGet m k = none) :
    mapSet m k v = m ++ [(k, v)] := by
  unfold mapSet
  rw [(mapGet_eq_none_iff m k).mp h]
  simp

theorem mapGet_mapSet_self {α : Type} (m : List (String × α)) (k : String)
    (v : α) :
    mapGet (mapSet m k v) k = some v := by
  unfold mapGet mapSet
  by_cases hs : (m.find? (fun e => e.1 == k)).isSome
  · rw [if_pos hs, find?_mapSet_replace, if_pos hs]
    rfl
  · have hn : m.find? (fun e => e.1 == k) = none :=
      Option.not_isSome_iff_eq_none.mp hs
    rw [if_neg hs, List.find?_append, hn]
    simp

theorem mapGet_mapSet_ne {α : Type} (m : List (String × α)) (k k' : String)
    (v : α) (h : k' ≠ k) :
    mapGet (mapSet m k v) k' = mapGet m k' := by
  unfold mapGet mapSet
  by_cases hs : (m.find? (fun e => e.1 == k)).isSome
  · rw [if_pos hs, find?_mapSet_replace_ne m k k' v h]
  · have hk : ¬ (k = k') := fun hh => h hh.symm
    rw [if_neg hs, List.find?_append]
    simp [List.find?_cons, hk]

theorem length_mapSet_of_fresh {α : Type} (m : List (String × α))
    (k : String) (v : α) (h : mapGet m k = none) :
    (mapSet m k v).length = m.length + 1 := by
  rw [mapSet_of_fresh m k v h]
  simp

/-! ### Claim C1: room broadcast delivery -/

theorem broadcast_sends_structure {α : Type} (serialize : α → String)
    (clients : List WsClient) (room : String) (message : α) :
    ∀ e ∈ broadcastToRoom serialize clients room message,
      e.2 = serialize message ∧
      ∃ c ∈ clients, e.1 = c.ws ∧ room ∈ c.rooms ∧ c.readyState = WSOPEN := by
  intro e he
  unfold broadcastToRoom at he
  simp only [List.mem_filterMap] at he
  obtain ⟨c, hc, hcond⟩ := he
  by_cases h : room ∈ c.rooms ∧ c.readyState = WSOPEN
  · rw [if_pos h] at hcond
    cases hcond
    exact ⟨rfl, c, hc, rfl, h.1, h.2⟩
  · rw [if_neg h] at hcond
    cases hcond

theorem broadcastToRoom_cons {α : Type} (serialize : α → String)
    (c0 : WsClient) (t : List WsClient) (room : String) (message : α) :
    broadcastToRoom serialize (c0 :: t) room message
      = (if room ∈ c0.rooms ∧ c0.readyState = WSOPEN
          then [(c0.ws, serialize message)] else [])
        ++ broadcastToRoom serialize t room message := by
  unfold broadcastToRoom
  by_cases h : room ∈ c0.rooms ∧ c0.readyState = WSOPEN
  · simp [List.filterMap_cons, h]
  · simp [List.filterMap_cons, h]

theorem broadcast_count {α : Type} (serialize : α → String)
    (clients : List WsClient) (room : String) (message : α)
    (hnodup : (clients.map WsClient.ws).Nodup) :
    ∀ c ∈ clients,
      (broadcastToRoom serialize clients room message).count
          (c.ws, serialize message)
        = if room ∈ c.rooms ∧ c.readyState = WSOPEN then 1 else 0 := by
  induction clients with
  | nil => intro c hc; cases hc
  | cons c0 t ih =>
    rw [List.map_cons] at hnodup
    have hn0 : c0.ws ∉ t.map WsClient.ws := (List.nodup_cons.mp hnodup).1
    have hnt : (t.map WsClient.ws).Nodup := (List.nodup_cons.mp hnodup).2
    intro c hc
    have hz : ∀ d : WsClient, d.ws ∉ t.map WsClient.ws →
        (broadcastToRoom serialize t room message).count
          (d.ws, serialize message) = 0 := by
      intro d hd
      rw [List.count_eq_zero]
      intro hmem
      obtain ⟨-, c', hc', h1, -, -⟩ :=
        broadcast_sends_structure serialize t room message _ hmem
      have h1' : d.ws = c'.ws := h1
      exact hd (h1' ▸ List.mem_map_of_mem WsClient.ws hc')
    rw [broadcastToRoom_cons, List.count_append]
    rcases List.mem_cons.mp hc with rfl | hct
    · by_cases hcond : room ∈ c.rooms ∧ c.readyState = WSOPEN
      · rw [if_pos hcond, if_pos hcond, hz c hn0]
        simp [List.count_cons]
      · rw [if_neg hcond, if_neg hcond, hz c hn0]
        simp
    · have hne : c0.ws ≠ c.ws := by
        intro hh
        exact hn0 (hh ▸ List.mem_map_of_mem WsClient.ws hct)
      have hmain := ih hnt c hct
      by_cases hcond0 : room ∈ c0.rooms ∧ c0.readyState = WSOPEN
      · rw [if_pos hcond0]
        have hcnt : ([(c0.ws, serialize message)] : List (Nat × String)).count
            (c.ws, serialize message) = 0 := by
          simp [List.count_cons, hne]
        rw [hcnt, hmain]
        simp
      · rw [if_neg hcond0]
        simp [hmain]

/-- C1: `broadcastToRoom(r, m)` sends the serialized `m` exactly once to
every registered connection whose membership set contains `r` and whose
channel is currently open, and to no other connection; closed or
errored channels are silently skipped (they receive nothing, no error
is surfaced and there is no retry). -/
theorem C1_broadcastToRoom_exactly_once {α : Type} (serialize : α → String)
    (clients : List WsClient) (room : String) (message : α)
    (hnodup : (clients.map WsClient.ws).Nodup) :
    (∀ e ∈ broadcastToRoom serialize clients room message,
        e.2 = serialize message ∧
        ∃ c ∈ clients, e.1 = c.ws ∧ room ∈ c.rooms ∧ c.readyState = WSOPEN) ∧
    (∀ c ∈ clients,
        (broadcastToRoom serialize clients room message).count
            (c.ws, serialize message)
          = if room ∈ c.rooms ∧ c.readyState = WSOPEN then 1 else 0) :=
  ⟨broadcast_sends_structure serialize clients room message,
   broadcast_count serialize clients room message hnodup⟩

/-- Witness for C1 on a concrete registry: the open member receives the
message exactly once, the non-member and the closed member receive
nothing. -/
theorem C1_witness :
    (([wsA, wsB, wsC].map WsClient.ws).Nodup) ∧
    (broadcastToRoom (fun s => s) [wsA, wsB, wsC] "markets" "hello").count
        (wsA.ws, "hello") = 1 ∧
    (broadcastToRoom (fun s => s) [wsA, wsB, wsC] "markets" "hello").count
        (wsB.ws, "hello") = 0 ∧
    (broadcastToRoom (fun s => s) [wsA, wsB, wsC] "markets" "hello").count
        (wsC.ws, "hello") = 0 := by
  have hnd : (([wsA, wsB, wsC].map WsClient.ws).Nodup) := by decide
  refine ⟨hnd, ?_, ?_, ?_⟩
  · have h := (C1_broadcastToRoom_exactly_once (fun s => s)
      [wsA, wsB, wsC] "markets" "hello" hnd).2 wsA (by simp)
    rw [if_pos (by decide)] at h
    exact h
  · have h := (C1_broadcastToRoom_exactly_once (fun s => s)
      [wsA, wsB, wsC] "markets" "hello" hnd).2 wsB (by simp)
    rw [if_neg (by decide)] at h
    exact h
  · have h := (C1_broadcastToRoom_exactly_once (fun s => s)
      [wsA, wsB, wsC] "markets" "hello" hnd).2 wsC (by simp)
    rw [if_neg (by decide)] at h
    exact h

/-! ### Claim C5: join_room sequences -/

theorem mem_joinRoom (rooms : List String) (r x : String) :
    x ∈ joinRoom rooms r ↔ x ∈ rooms ∨ x = r := by
  unfold joinRoom
  by_cases h : r ∈ rooms
  · rw [if_pos h]
    constructor
    · exact Or.inl
    · rintro (hx | rfl)
      · exact hx
      · exact h
  · rw [if_neg h]
    simp

theorem nodup_joinRoom (rooms : List String) (r : String)
    (h : rooms.Nodup) : (joinRoom rooms r).Nodup := by
  unfold joinRoom
  by_cases hr : r ∈ rooms
  · rwa [if_pos hr]
  · rw [if_neg hr]
    simp [List.nodup_append, h]
    exact hr

theorem mem_foldl_joinRoom (reqs : List String) :
    ∀ (init : List String) (x : String),
      x ∈ reqs.foldl joinRoom init ↔ x ∈ init ∨ x ∈ reqs := by
  induction reqs with
  | nil => intro init x; simp
  | cons r t ih =>
    intro init x
    rw [List.foldl_cons, ih, mem_joinRoom]
    simp [List.mem_cons]
    tauto

theorem nodup_foldl_joinRoom (reqs : List String) :
    ∀ init : List String, init.Nodup → (reqs.foldl joinRoom init).Nodup := by
  induction reqs with
  | nil => intro init h; exact h
  | cons r t ih =>
    intro init h
    rw [List.foldl_cons]
    exact ih _ (nodup_joinRoom init r h)

theorem processJoinSeq_rooms (verify : String → Option String) (s : Store)
    (reqs : List String) :
    ∀ c : WsClient,
      (processJoinSeq verify s c reqs).rooms = reqs.foldl joinRoom c.rooms := by
  induction reqs with
  | nil => intro c; rfl
  | cons r t ih =>
    intro c
    rw [List.foldl_cons]
    exact ih { c with rooms := joinRoom c.rooms r }

/-- C5: after any sequence of `join_room` messages on one connection
starting from an empty membership set, the membership set holds exactly
the distinct room names requested — duplicates collapse (the resulting
list is duplicate-free) and membership depends only on the set of
requested names, so joining is idempotent and order-insensitive. -/
theorem C5_join_sequence_membership (verify : String → Option String)
    (s : Store) (c : WsClient) (reqs : List String) (h0 : c.rooms = []) :
    (∀ r, r ∈ (processJoinSeq verify s c reqs).rooms ↔ r ∈ reqs) ∧
    (processJoinSeq verify s c reqs).rooms.Nodup := by
  constructor
  · intro r
    rw [processJoinSeq_rooms verify s reqs c, h0, mem_foldl_joinRoom]
    simp
  · rw [processJoinSeq_rooms verify s reqs c, h0]
    exact nodup_foldl_joinRoom reqs [] List.nodup_nil

/-- Witness for C5: a fresh connection joining `markets`, `tasks`,
`markets` ends with membership exactly `{markets, tasks}`. -/
theorem C5_witness :
    wsEmpty.rooms = [] ∧
    (∀ r, r ∈ (processJoinSeq (fun _ => none) sampleStore wsEmpty
        ["markets", "tasks", "markets"]).rooms
      ↔ r ∈ ["markets", "tasks", "markets"]) ∧
    (processJoinSeq (fun _ => none) sampleStore wsEmpty
        ["markets", "tasks", "markets"]).rooms.Nodup := by
  have h := C5_join_sequence_membership (fun _ => none) sampleStore wsEmpty
    ["markets", "tasks", "markets"] rfl
  exact ⟨rfl, h.1, h.2⟩

/-! ### Claim C7: malformed and unrecognized frames -/

theorem handle_malformed (verify : String → Option String) (s : Store)
    (c : WsClient) :
    handleWsMessage verify s c .malformed = (c, []) := rfl

theorem handle_other (verify : String → Option String) (s : Store)
    (c : WsClient) (ty : String) :
    handleWsMessage verify s c (.other ty) = (c, []) := rfl

theorem processWsMessage_id_of_handle_id (verify : String → Option String)
    (s : Store) (reg : List WsClient) (wsId : Nat) (msg : WsIncoming)
    (hnodup : (reg.map WsClient.ws).Nodup)
    (hid : ∀ c, handleWsMessage verify s c msg = (c, [])) :
    processWsMessage verify s reg wsId msg = (reg, []) := by
  unfold processWsMessage
  cases hf : reg.find? (fun c => c.ws == wsId) with
  | none => rfl
  | some c =>
    have hcmem : c ∈ reg := List.mem_of_find?_eq_some hf
    have hcws : c.ws = wsId := by simpa using List.find?_some hf
    have hmap : reg.map (fun e => if e.ws == wsId then c else e) = reg := by
      rw [List.map_congr_left (g := fun a => a), List.map_id']
      intro e he
      by_cases hews : e.ws = wsId
      · have : e = c :=
          List.inj_on_of_nodup_map hnodup he hcmem (by rw [hews, hcws])
        simp [hews, this]
      · simp [hews]
    simp only [hid c, hmap]

/-- C7: an inbound frame that fails to parse, or whose `type` is
unrecognized, is caught and logged; the registry is unchanged (the
connection stays registered and its entry — rooms, identity, ready
state — is untouched) and no reply frame is produced.  The handler is
total, so such messages never terminate the process. -/
theorem C7_malformed_frames_ignored (verify : String → Option String)
    (s : Store) (reg : List WsClient) (wsId : Nat) (ty : String)
    (hnodup : (reg.map WsClient.ws).Nodup) :
    processWsMessage verify s reg wsId .malformed = (reg, []) ∧
    processWsMessage verify s reg wsId (.other ty) = (reg, []) ∧
    (∀ c, handleWsMessage verify s c .malformed = (c, [])) ∧
    (∀ c, handleWsMessage verify s c (.other ty) = (c, [])) :=
  ⟨processWsMessage_id_of_handle_id verify s reg wsId .malformed hnodup
      (handle_malformed verify s),
   processWsMessage_id_of_handle_id verify s reg wsId (.other ty) hnodup
      (fun c => handle_other verify s c ty),
   handle_malformed verify s,
   fun c => handle_other verify s c ty⟩

/-- Witness for C7: a malformed frame and an unknown `"subscribe"`
frame on a concrete three-client registry change nothing and produce no
reply. -/
theorem C7_witness :
    (([wsA, wsB, wsC].map WsClient.ws).Nodup) ∧
    processWsMessage (fun _ => none) sampleStore [wsA, wsB, wsC] 1
        .malformed = ([wsA, wsB, wsC], []) ∧
    processWsMessage (fun _ => none) sampleStore [wsA, wsB, wsC] 1
        (.other "subscribe") = ([wsA, wsB, wsC], []) := by
  have hnd : (([wsA, wsB, wsC].map WsClient.ws).Nodup) := by decide
  have h := C7_malformed_frames_ignored (fun _ => none) sampleStore
    [wsA, wsB, wsC] 1 "subscribe" hnd
  exact ⟨hnd, h.1, h.2.1⟩

/-! ### Claim C8: leaderboard ordering -/

theorem leaderboard_le_trans :
    ∀ a b c : User,
      (fun a b : User => decide (b.weeklyXp ≤ a.weeklyXp)) a b = true →
      (fun a b : User => decide (b.weeklyXp ≤ a.weeklyXp)) b c = true →
      (fun a b : User => decide (b.weeklyXp ≤ a.weeklyXp)) a c = true := by
  intro a b c hab hbc
  simp only [decide_eq_true_eq] at *
  exact le_trans hbc hab

theorem leaderboard_le_total :
    ∀ a b : User,
      ((fun a b : User => decide (b.weeklyXp ≤ a.weeklyXp)) a b ||
       (fun a b : User => decide (b.weeklyXp ≤ a.weeklyXp)) b a) = true := by
  intro a b
  simp only [Bool.or_eq_true, decide_eq_true_eq]
  exact le_total b.weeklyXp a.weeklyXp

theorem leaderboardSorted_stable_filter (s : Store) (w : Int) :
    (leaderboardSorted s).filter (fun u => u.weeklyXp == w)
      = (mapValues s.users).filter (fun u => u.weeklyXp == w) := by
  unfold leaderboardSorted
  set l := mapValues s.users with hl
  set p : User → Bool := fun u => u.weeklyXp == w with hp
  set le : User → User → Bool :=
    fun a b : User => decide (b.weeklyXp ≤ a.weeklyXp) with hle
  have hpair : (l.filter p).Pairwise (fun a b => le a b = true) := by
    apply List.pairwise_of_forall_mem_list
    intro a ha b hb
    have haw : a.weeklyXp = w := by
      simpa [hp] using (List.mem_filter.mp ha).2
    have hbw : b.weeklyXp = w := by
      simpa [hp] using (List.mem_filter.mp hb).2
    simp [hle, haw, hbw]
  have hsub2 : (l.filter p).Sublist (l.mergeSort le) :=
    List.sublist_mergeSort leaderboard_le_trans leaderboard_le_total hpair
      (List.filter_sublist l)
  have heq : (l.filter p).filter p = l.filter p := by
    rw [List.filter_filter]
    simp
  have hsub3 : (l.filter p).Sublist ((l.mergeSort le).filter p) := by
    have := hsub2.filter p
    rwa [heq] at this
  have hperm : ((l.mergeSort le).filter p).Perm (l.filter p) :=
    (List.mergeSort_perm l le).filter p
  have hlen : (l.filter p).length = ((l.mergeSort le).filter p).length :=
    hperm.length_eq.symm
  exact (hsub3.eq_of_length hlen).symm

/-- C8: `getLeaderboard` returns at most `limit` users (default 10),
sorted in descending order of `weeklyXp`; the result is the `limit`
truncation of a stable descending sort of the store's users, so ties of
equal `weeklyXp` keep the store's insertion/iteration order (for every
weekly-XP value, filtering the sorted list to that value gives exactly
the insertion-ordered filter of the store). -/
theorem C8_getLeaderboard_spec (s : Store) (limit : Nat) :
    (getLeaderboard s limit).length ≤ limit ∧
    (getLeaderboard s limit).Pairwise
      (fun a b => b.weeklyXp ≤ a.weeklyXp) ∧
    getLeaderboard s limit = (leaderboardSorted s).take limit ∧
    getLeaderboard s = (leaderboardSorted s).take 10 ∧
    (leaderboardSorted s).Perm (mapValues s.users) ∧
    (∀ w : Int, (leaderboardSorted s).filter (fun u => u.weeklyXp == w)
      = (mapValues s.users).filter (fun u => u.weeklyXp == w)) := by
  refine ⟨?_, ?_, rfl, rfl, List.mergeSort_perm _ _, fun w =>
    leaderboardSorted_stable_filter s w⟩
  · exact List.length_take_le limit _
  · have hs : ((mapValues s.users).mergeSort
        (fun a b : User => decide (b.weeklyXp ≤ a.weeklyXp))).Pairwise
        (fun a b : User => decide (b.weeklyXp ≤ a.weeklyXp) = true) :=
      List.sorted_mergeSort leaderboard_le_trans leaderboard_le_total _
    have htake := List.Pairwise.sublist
      (List.take_sublist limit _) hs
    exact htake.imp (fun h => by simpa using h)


theorem placePrediction_success_eq
    (s : Store) (uid : String) (ip : InsertPrediction) (pid : String)
    (now : Timestamp) (user : User) (m : PredictionMarket)
    (hu : getUser s uid = some user)
    (hlt : ¬ user.bdagBalance < ip.amount)
    (hm : getPredictionMarket s ip.marketId = some m)
    (hfresh : mapGet s.predictions pid = none) :
    ∃ sOut p, placePrediction s uid ip pid now = .ok (sOut, p) ∧
      p = (createPrediction s pid now { ip with userId := uid }).2 ∧
      sOut.predictions = s.predictions ++ [(pid, p)] ∧
      mapGet sOut.users uid
        = some (mergeUser user
            { bdagBalance := some (user.bdagBalance - ip.amount) }) ∧
      (∀ k, k ≠ uid → mapGet sOut.users k = mapGet s.users k) ∧
      mapGet sOut.predictionMarkets ip.marketId
        = some (mergePredictionMarket m
            { totalPool := some (marketOdds
                (getPredictionsByMarket s ip.marketId ++ [p])).totalPool
              participantCount := some (marketOdds
                (getPredictionsByMarket s ip.marketId ++ [p])).participantCount
              yesPercentage := some (marketOdds
                (getPredictionsByMarket s ip.marketId ++ [p])).yesPercentage
              noPercentage := some (marketOdds
                (getPredictionsByMarket s ip.marketId ++ [p])).noPercentage }) := by
  have hu' : mapGet s.users uid = some user := hu
  have hm' : mapGet s.predictionMarkets ip.marketId = some m := hm
  have hamt : ({ ip with userId := uid } : InsertPrediction).amount
      = ip.amount := rfl
  have hmid : ({ ip with userId := uid } : InsertPrediction).marketId
      = ip.marketId := rfl
  simp only [placePrediction, hu, hamt, hmid, hlt, if_false,
    createPrediction, updateUser, getUser, hu', hm']
  simp only [getPredictionMarket, hm']
  simp only [updatePredictionMarket, hm']
  have hset : mapSet s.predictions pid
      { id := pid, userId := uid, marketId := ip.marketId,
        prediction := ip.prediction, amount := ip.amount,
        potentialWin := ip.potentialWin, status := "active",
        createdAt := some now }
      = s.predictions ++ [(pid,
        { id := pid, userId := uid, marketId := ip.marketId,
          prediction := ip.prediction, amount := ip.amount,
          potentialWin := ip.potentialWin, status := "active",
          createdAt := some now })] := mapSet_of_fresh _ _ _ hfresh
  simp only [hset, getPredictionsByMarket, mapValues, List.map_append,
    List.filter_append]
  refine ⟨_, _, rfl, rfl, ?_, ?_, ?_, ?_⟩
  · rfl
  · exact mapGet_mapSet_self _ _ _
  · intro k hk
    exact mapGet_mapSet_ne _ _ _ _ hk
  · rw [mapGet_mapSet_self]
    simp


theorem placePrediction_insufficient
    (s : Store) (uid : String) (ip : InsertPrediction) (pid : String)
    (now : Timestamp) (user : User)
    (hu : getUser s uid = some user)
    (hlt : user.bdagBalance < ip.amount) :
    placePrediction s uid ip pid now
      = .error (⟨400, "Insufficient BDAG balance"⟩, s) := by
  have hamt : ({ ip with userId := uid } : InsertPrediction).amount
      = ip.amount := rfl
  simp only [placePrediction, hu, hamt, hlt, if_true]

theorem placePrediction_noMarket_eq
    (s : Store) (uid : String) (ip : InsertPrediction) (pid : String)
    (now : Timestamp) (user : User)
    (hu : getUser s uid = some user)
    (hlt : ¬ user.bdagBalance < ip.amount)
    (hm : getPredictionMarket s ip.marketId = none)
    (hfresh : mapGet s.predictions pid = none) :
    ∃ sOut p, placePrediction s uid ip pid now = .ok (sOut, p) ∧
      p = (createPrediction s pid now { ip with userId := uid }).2 ∧
      sOut.predictions = s.predictions ++ [(pid, p)] ∧
      mapGet sOut.users uid
        = some (mergeUser user
            { bdagBalance := some (user.bdagBalance - ip.amount) }) ∧
      (∀ k, k ≠ uid → mapGet sOut.users k = mapGet s.users k) := by
  have hu' : mapGet s.users uid = some user := hu
  have hm' : mapGet s.predictionMarkets ip.marketId = none := hm
  have hamt : ({ ip with userId := uid } : InsertPrediction).amount
      = ip.amount := rfl
  have hmid : ({ ip with userId := uid } : InsertPrediction).marketId
      = ip.marketId := rfl
  simp only [placePrediction, hu, hamt, hmid, hlt, if_false,
    createPrediction, updateUser, getUser, hu']
  simp only [getPredictionMarket, hm']
  have hset : mapSet s.predictions pid
      { id := pid, userId := uid, marketId := ip.marketId,
        prediction := ip.prediction, amount := ip.amount,
        potentialWin := ip.potentialWin, status := "active",
        createdAt := some now }
      = s.predictions ++ [(pid,
        { id := pid, userId := uid, marketId := ip.marketId,
          prediction := ip.prediction, amount := ip.amount,
          potentialWin := ip.potentialWin, status := "active",
          createdAt := some now })] := mapSet_of_fresh _ _ _ hfresh
  simp only [hset]
  refine ⟨_, _, rfl, rfl, rfl, ?_, ?_⟩
  · exact mapGet_mapSet_self _ _ _
  · intro k hk
    exact mapGet_mapSet_ne _ _ _ _ hk

theorem mergeUser_bdagBalance_only (u : User) (b : ℚ) :
    mergeUser u { bdagBalance := some b } = { u with bdagBalance := b } := rfl

theorem marketOdds_perm (ps ps2 : List Prediction) (hperm : ps.Perm ps2) :
    marketOdds ps = marketOdds ps2 := by
  unfold marketOdds
  have h1 : (ps.map Prediction.amount).sum = (ps2.map Prediction.amount).sum :=
    ((hperm.map Prediction.amount)).sum_eq
  have h2 : ((ps.filter (fun p => p.prediction)).map Prediction.amount).sum
      = ((ps2.filter (fun p => p.prediction)).map Prediction.amount).sum :=
    (((hperm.filter (fun p => p.prediction)).map Prediction.amount)).sum_eq
  have h3 : ((ps.filter (fun p => !p.prediction)).map Prediction.amount).sum
      = ((ps2.filter (fun p => !p.prediction)).map Prediction.amount).sum :=
    (((hperm.filter (fun p => !p.prediction)).map Prediction.amount)).sum_eq
  rw [h1, h2, h3, hperm.length_eq]

theorem marketOdds_zero_pool (ps : List Prediction)
    (h : (ps.map Prediction.amount).sum = 0) :
    (marketOdds ps).yesPercentage = "50.00" ∧
    (marketOdds ps).noPercentage = "50.00" := by
  simp only [marketOdds]
  rw [h]
  simp

theorem marketOdds_empty :
    (marketOdds []).yesPercentage = "50.00" ∧
    (marketOdds []).noPercentage = "50.00" :=
  marketOdds_zero_pool [] rfl

theorem marketOdds_pos_pool (ps : List Prediction)
    (h : 0 < (ps.map Prediction.amount).sum) :
    (marketOdds ps).yesPercentage
      = toFixed2 (((ps.filter (fun p => p.prediction)).map
          Prediction.amount).sum / (ps.map Prediction.amount).sum * 100) ∧
    (marketOdds ps).noPercentage
      = toFixed2 (((ps.filter (fun p => !p.prediction)).map
          Prediction.amount).sum / (ps.map Prediction.amount).sum * 100) := by
  simp only [marketOdds]
  rw [if_pos h, if_pos h]
  exact ⟨rfl, rfl⟩


/-- C2: after a prediction on an existing market, the market's stored
statistics are recomputed from all predictions of that market:
`totalPool` is the sum of amounts, each percentage is rendered from its
own side's sum when the pool is positive (not as 100 minus the other),
both default to `"50.00"` when the pool is zero (in particular with
zero predictions), and the recomputation is deterministic and
independent of the order in which the predictions were placed. -/
theorem C2_market_odds (s : Store) (uid : String) (ip : InsertPrediction)
    (pid : String) (now : Timestamp) (user : User) (m : PredictionMarket)
    (hu : getUser s uid = some user)
    (hlt : ¬ user.bdagBalance < ip.amount)
    (hm : getPredictionMarket s ip.marketId = some m)
    (hfresh : mapGet s.predictions pid = none) :
    (∃ sOut p, placePrediction s uid ip pid now = .ok (sOut, p) ∧
      mapGet sOut.predictionMarkets ip.marketId
        = some (mergePredictionMarket m
            { totalPool := some (marketOdds
                (getPredictionsByMarket s ip.marketId ++ [p])).totalPool
              participantCount := some (marketOdds
                (getPredictionsByMarket s ip.marketId ++ [p])).participantCount
              yesPercentage := some (marketOdds
                (getPredictionsByMarket s ip.marketId ++ [p])).yesPercentage
              noPercentage := some (marketOdds
                (getPredictionsByMarket s ip.marketId ++ [p])).noPercentage })) ∧
    (∀ ps ps2 : List Prediction, ps.Perm ps2 →
      marketOdds ps = marketOdds ps2) ∧
    ((marketOdds []).yesPercentage = "50.00" ∧
      (marketOdds []).noPercentage = "50.00") ∧
    (∀ ps : List Prediction, (ps.map Prediction.amount).sum = 0 →
      (marketOdds ps).yesPercentage = "50.00" ∧
      (marketOdds ps).noPercentage = "50.00") ∧
    (∀ ps : List Prediction, 0 < (ps.map Prediction.amount).sum →
      (marketOdds ps).yesPercentage
        = toFixed2 (((ps.filter (fun p => p.prediction)).map
            Prediction.amount).sum / (ps.map Prediction.amount).sum * 100) ∧
      (marketOdds ps).noPercentage
        = toFixed2 (((ps.filter (fun p => !p.prediction)).map
            Prediction.amount).sum / (ps.map Prediction.amount).sum * 100)) := by
  obtain ⟨sOut, p, hrun, hp, hpreds, huser, hframe, hmkt⟩ :=
    placePrediction_success_eq s uid ip pid now user m hu hlt hm hfresh
  exact ⟨⟨sOut, p, hrun, hmkt⟩, marketOdds_perm, marketOdds_empty,
    marketOdds_zero_pool, marketOdds_pos_pool⟩

/-- Witness for C2: the sample store's user places a 40-BDAG prediction
on the sample market; additionally, odds of a concrete two-prediction
list are invariant under swapping, and an empty prediction list yields
both percentages `"50.00"`. -/
theorem C2_witness :
    getUser sampleStore "user-1" = some sampleUser ∧
    (¬ sampleUser.bdagBalance < ipSample.amount) ∧
    getPredictionMarket sampleStore ipSample.marketId = some sampleMarket ∧
    mapGet sampleStore.predictions "pred-1" = none ∧
    marketOdds [predYes1, predNo799] = marketOdds [predNo799, predYes1] ∧
    (marketOdds []).yesPercentage = "50.00" ∧
    (marketOdds []).noPercentage = "50.00" := by
  have h1 : getUser sampleStore "user-1" = some sampleUser := by rfl
  have h2 : ¬ sampleUser.bdagBalance < ipSample.amount := by decide
  have h3 : getPredictionMarket sampleStore ipSample.marketId
      = some sampleMarket := by rfl
  have h4 : mapGet sampleStore.predictions "pred-1" = none := by rfl
  have h := C2_market_odds sampleStore "user-1" ipSample "pred-1" 5
    sampleUser sampleMarket h1 h2 h3 h4
  exact ⟨h1, h2, h3, h4, h.2.1 _ _ (by decide), h.2.2.1.1, h.2.2.1.2⟩

/-- C4: placing a prediction checks the user's balance first: when the
parsed balance is below the parsed amount the request fails with status
400 and message `"Insufficient BDAG balance"` and the store is
untouched; otherwise exactly one prediction record is appended and the
user's balance becomes the old balance minus the amount (other users'
records are unchanged). -/
theorem C4_prediction_balance (s : Store) (uid : String)
    (ip : InsertPrediction) (pid : String) (now : Timestamp) (user : User)
    (hu : getUser s uid = some user)
    (hfresh : mapGet s.predictions pid = none) :
    (user.bdagBalance < ip.amount →
      placePrediction s uid ip pid now
        = .error (⟨400, "Insufficient BDAG balance"⟩, s)) ∧
    (¬ user.bdagBalance < ip.amount →
      ∃ sOut p, placePrediction s uid ip pid now = .ok (sOut, p) ∧
        p = (createPrediction s pid now { ip with userId := uid }).2 ∧
        sOut.predictions = s.predictions ++ [(pid, p)] ∧
        mapGet sOut.users uid
          = some { user with bdagBalance := user.bdagBalance - ip.amount } ∧
        (∀ k, k ≠ uid → mapGet sOut.users k = mapGet s.users k)) := by
  constructor
  · intro hlt
    exact placePrediction_insufficient s uid ip pid now user hu hlt
  · intro hlt
    cases hmkt : getPredictionMarket s ip.marketId with
    | none =>
      obtain ⟨sOut, p, hrun, hp, hpreds, huser, hframe⟩ :=
        placePrediction_noMarket_eq s uid ip pid now user hu hlt hmkt hfresh
      rw [mergeUser_bdagBalance_only] at huser
      exact ⟨sOut, p, hrun, hp, hpreds, huser, hframe⟩
    | some m =>
      obtain ⟨sOut, p, hrun, hp, hpreds, huser, hframe, hmkt2⟩ :=
        placePrediction_success_eq s uid ip pid now user m hu hlt hmkt hfresh
      rw [mergeUser_bdagBalance_only] at huser
      exact ⟨sOut, p, hrun, hp, hpreds, huser, hframe⟩

/-- Witness for C4: with balance 100, an amount of 200 is rejected with
status 400 and an untouched store, while an amount of 40 succeeds and
leaves balance 100 − 40 = 60. -/
theorem C4_witness :
    getUser sampleStore "user-1" = some sampleUser ∧
    mapGet sampleStore.predictions "pred-1" = none ∧
    sampleUser.bdagBalance < ipTooBig.amount ∧
    placePrediction sampleStore "user-1" ipTooBig "pred-1" 5
      = .error (⟨400, "Insufficient BDAG balance"⟩, sampleStore) ∧
    (¬ sampleUser.bdagBalance < ipSample.amount) ∧
    (∃ sOut p,
      placePrediction sampleStore "user-1" ipSample "pred-1" 5
        = .ok (sOut, p) ∧
      p = (createPrediction sampleStore "pred-1" 5
        { ipSample with userId := "user-1" }).2 ∧
      sOut.predictions = sampleStore.predictions ++ [("pred-1", p)] ∧
      mapGet sOut.users "user-1"
        = some { sampleUser with
            bdagBalance := sampleUser.bdagBalance - ipSample.amount } ∧
      (∀ k, k ≠ "user-1" →
        mapGet sOut.users k = mapGet sampleStore.users k)) ∧
    sampleUser.bdagBalance - ipSample.amount = 60 := by
  have h1 : getUser sampleStore "user-1" = some sampleUser := by rfl
  have h4 : mapGet sampleStore.predictions "pred-1" = none := by rfl
  have hbig : sampleUser.bdagBalance < ipTooBig.amount := by decide
  have hok : ¬ sampleUser.bdagBalance < ipSample.amount := by decide
  have hA := C4_prediction_balance sampleStore "user-1" ipTooBig "pred-1" 5
    sampleUser h1 h4
  have hB := C4_prediction_balance sampleStore "user-1" ipSample "pred-1" 5
    sampleUser h1 h4
  refine ⟨h1, h4, hbig, hA.1 hbig, hok, hB.2 hok, ?_⟩
  norm_num [sampleUser, ipSample]

theorem mergeUser_rewards_only (u : User) (a b : Int) (c : ℚ) :
    mergeUser u { xp := some a, weeklyXp := some b, bdagBalance := some c }
      = { u with xp := a, weeklyXp := b, bdagBalance := c } := rfl

/-- C3: a progress update on a user task that is already `"completed"`,
with `progress >= maxProgress`, sets the status to `"completed"` again
and re-issues a reward: a new reward record is appended and the task's
XP and BDAG are credited to the user a second time — no guard inspects
the previous status. -/
theorem C3_completion_not_idempotent (s : Store) (uid utId : String)
    (progress : Int) (rid : String) (now : Timestamp)
    (ut : UserTask) (task : Task) (user : User)
    (hfind : (getUserTasks s uid).find? (fun x => x.id == utId) = some ut)
    (hmap : mapGet s.userTasks utId = some ut)
    (hstatus : ut.status = "completed")
    (hprog : ut.maxProgress ≤ progress)
    (htask : mapGet s.tasks ut.taskId = some task)
    (huser : mapGet s.users uid = some user)
    (hrfresh : mapGet s.rewards rid = none) :
    ∃ sOut utOut,
      updateUserTaskProgress s uid utId progress rid now
        = .ok (sOut, utOut) ∧
      utOut.status = "completed" ∧
      sOut.rewards = s.rewards ++ [(rid,
        { id := rid
          userId := uid
          type := "task_completion"
          source := task.id
          xpAmount := task.xpReward
          bdagAmount := task.bdagReward
          description := "Completed task: " ++ task.title
          createdAt := some now })] ∧
      sOut.rewards.length = s.rewards.length + 1 ∧
      mapGet sOut.users uid
        = some { user with
            xp := user.xp + task.xpReward
            weeklyXp := user.weeklyXp + task.xpReward
            bdagBalance := user.bdagBalance + task.bdagReward } := by
  simp only [updateUserTaskProgress, hfind]
  rw [if_pos hprog, if_pos hprog]
  simp only [updateUserTask, hmap, mergeUserTask, createReward, getTask,
    getUser, updateUser, huser, htask]
  simp only [Option.getD_some, Option.getD_none, beq_self_eq_true, if_true,
    htask]
  have hsetR : mapSet s.rewards rid
      { id := rid, userId := uid, type := "task_completion",
        source := task.id, xpAmount := task.xpReward,
        bdagAmount := task.bdagReward,
        description := "Completed task: " ++ task.title,
        createdAt := some now }
      = s.rewards ++ [(rid,
        { id := rid, userId := uid, type := "task_completion",
          source := task.id, xpAmount := task.xpReward,
          bdagAmount := task.bdagReward,
          description := "Completed task: " ++ task.title,
          createdAt := some now })] := mapSet_of_fresh _ _ _ hrfresh
  simp only [hsetR]
  refine ⟨_, _, rfl, rfl, rfl, ?_, ?_⟩
  · simp
  · rw [mapGet_mapSet_self]
    simp [mergeUser]

/-- Witness for C3: the sample user task is already completed with
progress 3 of 3; resending progress 3 succeeds again, appends a new
reward worth 300 XP and 100 BDAG, and credits the user again. -/
theorem C3_witness :
    (getUserTasks sampleStore "user-1").find? (fun x => x.id == "ut-1")
      = some completedUserTask ∧
    mapGet sampleStore.userTasks "ut-1" = some completedUserTask ∧
    completedUserTask.status = "completed" ∧
    completedUserTask.maxProgress ≤ (3 : Int) ∧
    mapGet sampleStore.tasks completedUserTask.taskId = some sampleTask ∧
    mapGet sampleStore.users "user-1" = some sampleUser ∧
    mapGet sampleStore.rewards "reward-1" = none ∧
    (∃ sOut utOut,
      updateUserTaskProgress sampleStore "user-1" "ut-1" 3 "reward-1" 9
        = .ok (sOut, utOut) ∧
      utOut.status = "completed" ∧
      sOut.rewards = sampleStore.rewards ++ [("reward-1",
        { id := "reward-1"
          userId := "user-1"
          type := "task_completion"
          source := sampleTask.id
          xpAmount := sampleTask.xpReward
          bdagAmount := sampleTask.bdagReward
          description := "Completed task: " ++ sampleTask.title
          createdAt := some 9 })] ∧
      sOut.rewards.length = sampleStore.rewards.length + 1 ∧
      mapGet sOut.users "user-1"
        = some { sampleUser with
            xp := sampleUser.xp + sampleTask.xpReward
            weeklyXp := sampleUser.weeklyXp + sampleTask.xpReward
            bdagBalance := sampleUser.bdagBalance + sampleTask.bdagReward }) := by
  have h1 : (getUserTasks sampleStore "user-1").find?
      (fun x => x.id == "ut-1") = some completedUserTask := by rfl
  have h2 : mapGet sampleStore.userTasks "ut-1" = some completedUserTask := by
    rfl
  have h3 : completedUserTask.status = "completed" := by rfl
  have h4 : completedUserTask.maxProgress ≤ (3 : Int) := by decide
  have h5 : mapGet sampleStore.tasks completedUserTask.taskId
      = some sampleTask := by rfl
  have h6 : mapGet sampleStore.users "user-1" = some sampleUser := by rfl
  have h7 : mapGet sampleStore.rewards "reward-1" = none := by rfl
  exact ⟨h1, h2, h3, h4, h5, h6, h7,
    C3_completion_not_idempotent sampleStore "user-1" "ut-1" 3 "reward-1" 9
      completedUserTask sampleTask sampleUser h1 h2 h3 h4 h5 h6 h7⟩

/-- C9: starting a task is duplicate-guarded: an existing user task for
the pair yields status 400 `"Task already started"` with the store
untouched; an unknown task id yields 404 with the store untouched;
otherwise exactly one user task is appended, with status
`"in_progress"`, progress 0 and `maxProgress` the length of the task's
requirements array (1 when the column is not an array). -/
theorem C9_start_task_guard (s : Store) (uid taskId newId : String)
    (now : Timestamp) :
    ((∃ ut0, getUserTask s uid taskId = some ut0) →
      startTask s uid taskId newId now
        = .error (⟨400, "Task already started"⟩, s)) ∧
    (getUserTask s uid taskId = none → getTask s taskId = none →
      startTask s uid taskId newId now
        = .error (⟨404, "Task not found"⟩, s)) ∧
    (∀ task, getUserTask s uid taskId = none → getTask s taskId = some task →
      mapGet s.userTasks newId = none →
      ∃ ut, startTask s uid taskId newId now
          = .ok ({ s with userTasks := s.userTasks ++ [(newId, ut)] }, ut) ∧
        ut.userId = uid ∧ ut.taskId = taskId ∧
        ut.status = "in_progress" ∧ ut.progress = 0 ∧
        ut.maxProgress = (match task.requirements with
          | .arr items => (items.length : Int)
          | .nonArray => 1)) := by
  refine ⟨?_, ?_, ?_⟩
  · rintro ⟨ut0, h⟩
    simp only [startTask, h]
  · intro h1 h2
    simp only [startTask, h1, h2]
  · intro task h1 h2 hfresh
    simp only [startTask, h1, h2, createUserTask]
    have hset : mapSet s.userTasks newId
        { id := newId, userId := uid, taskId := taskId,
          status := "in_progress", progress := 0,
          maxProgress := (match task.requirements with
            | .arr items => (items.length : Int)
            | .nonArray => 1),
          completedAt := none, createdAt := some now }
        = s.userTasks ++ [(newId,
          { id := newId, userId := uid, taskId := taskId,
            status := "in_progress", progress := 0,
            maxProgress := (match task.requirements with
              | .arr items => (items.length : Int)
              | .nonArray => 1),
            completedAt := none, createdAt := some now })] :=
      mapSet_of_fresh _ _ _ hfresh
    simp only [hset]
    exact ⟨_, rfl, rfl, rfl, rfl, rfl, rfl⟩

/-- Witness for C9: starting the sample task again is rejected with
`"Task already started"`; an unknown task id gives 404; a fresh user
starting the sample task gets one in-progress user task with
`maxProgress = 3` (three requirements). -/
theorem C9_witness :
    (∃ ut0, getUserTask sampleStore "user-1" "task-1" = some ut0) ∧
    startTask sampleStore "user-1" "task-1" "ut-2" 9
      = .error (⟨400, "Task already started"⟩, sampleStore) ∧
    getUserTask sampleStore "user-2" "task-404" = none ∧
    getTask sampleStore "task-404" = none ∧
    startTask sampleStore "user-2" "task-404" "ut-2" 9
      = .error (⟨404, "Task not found"⟩, sampleStore) ∧
    getUserTask sampleStore "user-2" "task-1" = none ∧
    getTask sampleStore "task-1" = some sampleTask ∧
    mapGet sampleStore.userTasks "ut-2" = none ∧
    (∃ ut, startTask sampleStore "user-2" "task-1" "ut-2" 9
        = .ok ({ sampleStore with
            userTasks := sampleStore.userTasks ++ [("ut-2", ut)] }, ut) ∧
      ut.userId = "user-2" ∧ ut.taskId = "task-1" ∧
      ut.status = "in_progress" ∧ ut.progress = 0 ∧
      ut.maxProgress = (match sampleTask.requirements with
        | .arr items => (items.length : Int)
        | .nonArray => 1)) := by
  have ha : getUserTask sampleStore "user-1" "task-1"
      = some completedUserTask := by rfl
  have hb : getUserTask sampleStore "user-2" "task-404" = none := by rfl
  have hc : getTask sampleStore "task-404" = none := by rfl
  have hd : getUserTask sampleStore "user-2" "task-1" = none := by rfl
  have he : getTask sampleStore "task-1" = some sampleTask := by rfl
  have hf : mapGet sampleStore.userTasks "ut-2" = none := by rfl
  have g1 := C9_start_task_guard sampleStore "user-1" "task-1" "ut-2" 9
  have g2 := C9_start_task_guard sampleStore "user-2" "task-404" "ut-2" 9
  have g3 := C9_start_task_guard sampleStore "user-2" "task-1" "ut-2" 9
  exact ⟨⟨completedUserTask, ha⟩, g1.1 ⟨completedUserTask, ha⟩,
    hb, hc, g2.2.1 hb hc, hd, he, hf, g3.2.2 sampleTask hd he hf⟩

/-- C6: role gating on creation: a market-creation request from role
`"basic"` is rejected with 403 and creates nothing, while any other
role (in particular `"premium"` and `"validator"`) creates a market; a
task-creation request from any role other than `"validator"` is
rejected with 403 and creates nothing, while `"validator"` creates a
task. -/
theorem C6_role_gating (s : Store) (im : InsertPredictionMarket)
    (it : InsertTask) (newId : String) (now : Timestamp) :
    (createMarketRoute s "basic" im newId now
      = .error (⟨403, "Upgrade required to create markets"⟩, s)) ∧
    (∀ role, role ≠ "basic" →
      createMarketRoute s role im newId now
        = .ok (createPredictionMarket s newId now im)) ∧
    (mapGet s.predictionMarkets newId = none →
      (createPredictionMarket s newId now im).1.predictionMarkets.length
        = s.predictionMarkets.length + 1) ∧
    (∀ role, role ≠ "validator" →
      createTaskRoute s role it newId now
        = .error (⟨403, "Only validators can create tasks"⟩, s)) ∧
    (createTaskRoute s "validator" it newId now
      = .ok (createTask s newId now it)) ∧
    (mapGet s.tasks newId = none →
      (createTask s newId now it).1.tasks.length = s.tasks.length + 1) := by
  refine ⟨rfl, ?_, ?_, ?_, rfl, ?_⟩
  · intro role h
    have hb : (role == "basic") = false := by
      simpa using h
    simp [createMarketRoute, hb]
  · intro hfresh
    simp only [createPredictionMarket]
    exact length_mapSet_of_fresh _ _ _ hfresh
  · intro role h
    have hb : (role == "validator") = false := by
      simpa using h
    simp [createTaskRoute, hb]
    exact h
  · intro hfresh
    simp only [createTask]
    exact length_mapSet_of_fresh _ _ _ hfresh

/-- Witness for C6: on the sample store, `"basic"` is rejected from
market creation while `"premium"` and `"validator"` create one;
`"basic"` and `"premium"` are rejected from task creation while
`"validator"` creates one. -/
theorem C6_witness :
    createMarketRoute sampleStore "basic" imSample "market-2" 9
      = .error (⟨403, "Upgrade required to create markets"⟩, sampleStore) ∧
    createMarketRoute sampleStore "premium" imSample "market-2" 9
      = .ok (createPredictionMarket sampleStore "market-2" 9 imSample) ∧
    createMarketRoute sampleStore "validator" imSample "market-2" 9
      = .ok (createPredictionMarket sampleStore "market-2" 9 imSample) ∧
    (createPredictionMarket sampleStore "market-2" 9
      imSample).1.predictionMarkets.length
      = sampleStore.predictionMarkets.length + 1 ∧
    createTaskRoute sampleStore "basic" itSample "task-2" 9
      = .error (⟨403, "Only validators can create tasks"⟩, sampleStore) ∧
    createTaskRoute sampleStore "premium" itSample "task-2" 9
      = .error (⟨403, "Only validators can create tasks"⟩, sampleStore) ∧
    createTaskRoute sampleStore "validator" itSample "task-2" 9
      = .ok (createTask sampleStore "task-2" 9 itSample) ∧
    (createTask sampleStore "task-2" 9 itSample).1.tasks.length
      = sampleStore.tasks.length + 1 := by
  have h := C6_role_gating sampleStore imSample itSample "market-2" 9
  have h2 := C6_role_gating sampleStore imSample itSample "task-2" 9
  exact ⟨h.1, h.2.1 "premium" (by decide), h.2.1 "validator" (by decide),
    h.2.2.1 (by rfl), h2.2.2.2.1 "basic" (by decide),
    h2.2.2.2.1 "premium" (by decide), h2.2.2.2.2.1,
    h2.2.2.2.2.2 (by rfl)⟩

theorem mergeUser_keeps (u : User) (up : UserUpdate) :
    UserKeepsUnnamed u (mergeUser u up) up :=
  ⟨fun h => by simp [mergeUser, h],
   fun h => by simp [mergeUser, h],
   fun h => by simp [mergeUser, h],
   fun h => by simp [mergeUser, h],
   fun h => by simp [mergeUser, h],
   fun h => by simp [mergeUser, h],
   fun h => by simp [mergeUser, h],
   fun h => by simp [mergeUser, h],
   fun h => by simp [mergeUser, h],
   fun h => by simp [mergeUser, h],
   fun h => by simp [mergeUser, h],
   fun h => by simp [mergeUser, h],
   fun h => by simp [mergeUser, h],
   fun h => by simp [mergeUser, h],
   fun h => by simp [mergeUser, h]⟩

theorem mergePredictionMarket_keeps (u : PredictionMarket) (up : PredictionMarketUpdate) :
    PredictionMarketKeepsUnnamed u (mergePredictionMarket u up) up :=
  ⟨fun h => by simp [mergePredictionMarket, h],
   fun h => by simp [mergePredictionMarket, h],
   fun h => by simp [mergePredictionMarket, h],
   fun h => by simp [mergePredictionMarket, h],
   fun h => by simp [mergePredictionMarket, h],
   fun h => by simp [mergePredictionMarket, h],
   fun h => by simp [mergePredictionMarket, h],
   fun h => by simp [mergePredictionMarket, h],
   fun h => by simp [mergePredictionMarket, h],
   fun h => by simp [mergePredictionMarket, h],
   fun h => by simp [mergePredictionMarket, h],
   fun h => by simp [mergePredictionMarket, h]⟩

theorem mergeTask_keeps (u : Task) (up : TaskUpdate) :
    TaskKeepsUnnamed u (mergeTask u up) up :=
  ⟨fun h => by simp [mergeTask, h],
   fun h => by simp [mergeTask, h],
   fun h => by simp [mergeTask, h],
   fun h => by simp [mergeTask, h],
   fun h => by simp [mergeTask, h],
   fun h => by simp [mergeTask, h],
   fun h => by simp [mergeTask, h],
   fun h => by simp [mergeTask, h],
   fun h => by simp [mergeTask, h],
   fun h => by simp [mergeTask, h],
   fun h => by simp [mergeTask, h],
   fun h => by simp [mergeTask, h],
   fun h => by simp [mergeTask, h],
   fun h => by simp [mergeTask, h]⟩

theorem mergeUserTask_keeps (u : UserTask) (up : UserTaskUpdate) :
    UserTaskKeepsUnnamed u (mergeUserTask u up) up :=
  ⟨fun h => by simp [mergeUserTask, h],
   fun h => by simp [mergeUserTask, h],
   fun h => by simp [mergeUserTask, h],
   fun h => by simp [mergeUserTask, h],
   fun h => by simp [mergeUserTask, h],
   fun h => by simp [mergeUserTask, h],
   fun h => by simp [mergeUserTask, h],
   fun h => by simp [mergeUserTask, h]⟩

theorem mergeUserAchievement_keeps (u : UserAchievement) (up : UserAchievementUpdate) :
    UserAchievementKeepsUnnamed u (mergeUserAchievement u up) up :=
  ⟨fun h => by simp [mergeUserAchievement, h],
   fun h => by simp [mergeUserAchievement, h],
   fun h => by simp [mergeUserAchievement, h],
   fun h => by simp [mergeUserAchievement, h],
   fun h => by simp [mergeUserAchievement, h],
   fun h => by simp [mergeUserAchievement, h],
   fun h => by simp [mergeUserAchievement, h],
   fun h => by simp [mergeUserAchievement, h]⟩

/-- C10: each in-memory update operation is a shallow merge: an
unknown id throws its "not found" error (and, the model being pure, no
record changes); for an existing id the stored record becomes the
pointwise merge, every field not named in the updates object (the id
included) keeps its previous value, all records under other keys are
unchanged, and all other tables of the store are untouched. -/
theorem C10_updates_shallow_merge (s : Store) (id : String) :
    (∀ up : UserUpdate,
      (mapGet s.users id = none →
        updateUser s id up = .error "User not found") ∧
      (∀ u, mapGet s.users id = some u →
        ∃ s2, updateUser s id up = .ok (s2, mergeUser u up) ∧
          mapGet s2.users id = some (mergeUser u up) ∧
          UserKeepsUnnamed u (mergeUser u up) up ∧
          (∀ k, k ≠ id → mapGet s2.users k = mapGet s.users k) ∧
          s2.predictionMarkets = s.predictionMarkets ∧
        s2.predictions = s.predictions ∧
        s2.tasks = s.tasks ∧
        s2.userTasks = s.userTasks ∧
        s2.userAchievements = s.userAchievements ∧
        s2.rewards = s.rewards)) ∧
    (∀ up : PredictionMarketUpdate,
      (mapGet s.predictionMarkets id = none →
        updatePredictionMarket s id up = .error "Market not found") ∧
      (∀ u, mapGet s.predictionMarkets id = some u →
        ∃ s2, updatePredictionMarket s id up = .ok (s2, mergePredictionMarket u up) ∧
          mapGet s2.predictionMarkets id = some (mergePredictionMarket u up) ∧
          PredictionMarketKeepsUnnamed u (mergePredictionMarket u up) up ∧
          (∀ k, k ≠ id → mapGet s2.predictionMarkets k = mapGet s.predictionMarkets k) ∧
          s2.users = s.users ∧
        s2.predictions = s.predictions ∧
        s2.tasks = s.tasks ∧
        s2.userTasks = s.userTasks ∧
        s2.userAchievements = s.userAchievements ∧
        s2.rewards = s.rewards)) ∧
    (∀ up : TaskUpdate,
      (mapGet s.tasks id = none →
        updateTask s id up = .error "Task not found") ∧
      (∀ u, mapGet s.tasks id = some u →
        ∃ s2, updateTask s id up = .ok (s2, mergeTask u up) ∧
          mapGet s2.tasks id = some (mergeTask u up) ∧
          TaskKeepsUnnamed u (mergeTask u up) up ∧
          (∀ k, k ≠ id → mapGet s2.tasks k = mapGet s.tasks k) ∧
          s2.users = s.users ∧
        s2.predictionMarkets = s.predictionMarkets ∧
        s2.predictions = s.predictions ∧
        s2.userTasks = s.userTasks ∧
        s2.userAchievements = s.userAchievements ∧
        s2.rewards = s.rewards)) ∧
    (∀ up : UserTaskUpdate,
      (mapGet s.userTasks id = none →
        updateUserTask s id up = .error "User task not found") ∧
      (∀ u, mapGet s.userTasks id = some u →
        ∃ s2, updateUserTask s id up = .ok (s2, mergeUserTask u up) ∧
          mapGet s2.userTasks id = some (mergeUserTask u up) ∧
          UserTaskKeepsUnnamed u (mergeUserTask u up) up ∧
          (∀ k, k ≠ id → mapGet s2.userTasks k = mapGet s.userTasks k) ∧
          s2.users = s.users ∧
        s2.predictionMarkets = s.predictionMarkets ∧
        s2.predictions = s.predictions ∧
        s2.tasks = s.tasks ∧
        s2.userAchievements = s.userAchievements ∧
        s2.rewards = s.rewards)) ∧
    (∀ up : UserAchievementUpdate,
      (mapGet s.userAchievements id = none →
        updateUserAchievement s id up = .error "User achievement not found") ∧
      (∀ u, mapGet s.userAchievements id = some u →
        ∃ s2, updateUserAchievement s id up = .ok (s2, mergeUserAchievement u up) ∧
          mapGet s2.userAchievements id = some (mergeUserAchievement u up) ∧
          UserAchievementKeepsUnnamed u (mergeUserAchievement u up) up ∧
          (∀ k, k ≠ id → mapGet s2.userAchievements k = mapGet s.userAchievements k) ∧
          s2.users = s.users ∧
        s2.predictionMarkets = s.predictionMarkets ∧
        s2.predictions = s.predictions ∧
        s2.tasks = s.tasks ∧
        s2.userTasks = s.userTasks ∧
        s2.rewards = s.rewards)) := by
  refine ⟨?_, ?_, ?_, ?_, ?_⟩
  · intro up
    constructor
    · intro h
      simp only [updateUser, h]
    · intro u h
      simp only [updateUser, h]
      exact ⟨_, rfl, mapGet_mapSet_self _ _ _, mergeUser_keeps u up,
        fun k hk => mapGet_mapSet_ne _ _ _ _ hk, rfl, rfl, rfl, rfl, rfl, rfl⟩
  · intro up
    constructor
    · intro h
      simp only [updatePredictionMarket, h]
    · intro u h
      simp only [updatePredictionMarket, h]
      exact ⟨_, rfl, mapGet_mapSet_self _ _ _, mergePredictionMarket_keeps u up,
        fun k hk => mapGet_mapSet_ne _ _ _ _ hk, rfl, rfl, rfl, rfl, rfl, rfl⟩
  · intro up
    constructor
    · intro h
      simp only [updateTask, h]
    · intro u h
      simp only [updateTask, h]
      exact ⟨_, rfl, mapGet_mapSet_self _ _ _, mergeTask_keeps u up,
        fun k hk => mapGet_mapSet_ne _ _ _ _ hk, rfl, rfl, rfl, rfl, rfl, rfl⟩
  · intro up
    constructor
    · intro h
      simp only [updateUserTask, h]
    · intro u h
      simp only [updateUserTask, h]
      exact ⟨_, rfl, mapGet_mapSet_self _ _ _, mergeUserTask_keeps u up,
        fun k hk => mapGet_mapSet_ne _ _ _ _ hk, rfl, rfl, rfl, rfl, rfl, rfl⟩
  · intro up
    constructor
    · intro h
      simp only [updateUserAchievement, h]
    · intro u h
      simp only [updateUserAchievement, h]
      exact ⟨_, rfl, mapGet_mapSet_self _ _ _, mergeUserAchievement_keeps u up,
        fun k hk => mapGet_mapSet_ne _ _ _ _ hk, rfl, rfl, rfl, rfl, rfl, rfl⟩

/-- Witness for C10: updating an unknown user or user task throws the
matching "not found" error; updating the sample user's wallet address
merges only that field and leaves everything else in place. -/
theorem C10_witness :
    mapGet sampleStore.users "user-404" = none ∧
    updateUser sampleStore "user-404" ({} : UserUpdate)
      = .error "User not found" ∧
    mapGet sampleStore.userTasks "ut-404" = none ∧
    updateUserTask sampleStore "ut-404" ({} : UserTaskUpdate)
      = .error "User task not found" ∧
    mapGet sampleStore.users "user-1" = some sampleUser ∧
    (∃ s2, updateUser sampleStore "user-1" upW
        = .ok (s2, mergeUser sampleUser upW) ∧
      mapGet s2.users "user-1" = some (mergeUser sampleUser upW) ∧
      UserKeepsUnnamed sampleUser (mergeUser sampleUser upW) upW ∧
      (∀ k, k ≠ "user-1" → mapGet s2.users k = mapGet sampleStore.users k) ∧
      s2.predictionMarkets = sampleStore.predictionMarkets ∧
      s2.predictions = sampleStore.predictions ∧
      s2.tasks = sampleStore.tasks ∧
      s2.userTasks = sampleStore.userTasks ∧
      s2.userAchievements = sampleStore.userAchievements ∧
      s2.rewards = sampleStore.rewards) := by
  have h404 : mapGet sampleStore.users "user-404" = none := by rfl
  have hut404 : mapGet sampleStore.userTasks "ut-404" = none := by rfl
  have h1 : mapGet sampleStore.users "user-1" = some sampleUser := by rfl
  have ha := C10_updates_shallow_merge sampleStore "user-404"
  have hb := C10_updates_shallow_merge sampleStore "ut-404"
  have hc := C10_updates_shallow_merge sampleStore "user-1"
  exact ⟨h404, (ha.1 ({} : UserUpdate)).1 h404,
    hut404, (hb.2.2.2.1 ({} : UserTaskUpdate)).1 hut404,
    h1, (hc.1 upW).2 sampleUser h1⟩

end DagForge
